import Mathlib

/-!
# Atlantis: pre-execution locking and the stage/step pipeline

A shallow embedding of

* `server/events/project_pre_execute.go` (`DefaultProjectPreExecutor.Execute`),
* `server/events/repoconfig/repoconfig.go` (`PlanStage.Run`, `ApplyStage.Run`),
* `server/events/repoconfig/repoconfig.go` (`Reader.BuildPlanStage`,
  `Reader.BuildApplyStage`),
* the plan step exercised by `server/events/repoconfig/plan_step_test.go`
  (`plan_step.go` itself is not among the sources at hand; its `Run` is
  modelled from the specification, section 4.3),
* the apply step exercised by `server/events/repoconfig/apply_step_test.go`
  (`apply_step.go` is not among the sources either; same section).

Go values of interface type (`locking.Locker`, `repoconfig.Step`,
`TerraformExec`) are embedded as records of state-passing functions over an
arbitrary state type; every call made through such an interface is also
appended to an explicit call log, so that "is called" / "is not called" are
statements about the log.  A Go `error` is `Option GoError`, `nil` being
`none`.  Logging calls (`ctx.Log.Info`) have no effect on any returned value
and are left out.
-/

namespace Atlantis

/-! ## Errors (`github.com/pkg/errors`) -/

/-- Go error values as they are built in this code base: `errors.New` /
`fmt.Errorf` give a message, `errors.Wrap` adds one layer of context. -/
inductive GoError where
  | new (msg : String)
  | wrap (cause : GoError) (context : String)
  deriving DecidableEq, Repr

/-- The `Error()` method: a wrapped error prints as `context: cause`. -/
def GoError.Error : GoError → String
  | .new msg => msg
  | .wrap cause context => context ++ ": " ++ cause.Error

/-! ## Data model used by the pre-executor -/

/-- The `models.Project` value: repository full name and path in the repository. -/
structure Project where
  RepoFullName : String
  Path : String
  deriving DecidableEq, Repr

/-- The `models.PullRequest` value; `Num` is a Go `int`. -/
structure PullRequest where
  Num : Int
  Author : String
  URL : String
  deriving DecidableEq, Repr

/-- The `models.User` value. -/
structure User where
  Username : String
  deriving DecidableEq, Repr

/-- The `models.ProjectLock` value: who holds the lock on a project and workspace. -/
structure ProjectLock where
  Project : Project
  Pull : PullRequest
  User : User
  Workspace : String
  deriving DecidableEq, Repr

/-- The `locking.TryLockResponse` value. -/
structure TryLockResponse where
  LockAcquired : Bool
  CurrLock : ProjectLock
  LockKey : String
  deriving DecidableEq, Repr

/-- Go zero value of `locking.TryLockResponse`. -/
def TryLockResponse.zero : TryLockResponse :=
  { LockAcquired := false
    CurrLock :=
      { Project := { RepoFullName := "", Path := "" }
        Pull := { Num := 0, Author := "", URL := "" }
        User := { Username := "" }
        Workspace := "" }
    LockKey := "" }

/-- Terraform version (`*version.Version`) as its three numeric segments. -/
structure Version where
  major : Nat
  minor : Nat
  patch : Nat
  deriving DecidableEq, Repr

/-- The `ProjectResult` value, restricted to the fields `Execute` sets. -/
structure ProjectResult where
  Error : Option GoError := none
  Failure : String := ""
  deriving DecidableEq, Repr

/-- The `ProjectConfig` value (the per-project settings the disabled setup code reads). -/
structure ProjectConfig where
  PreInit : List String := []
  PreGet : List String := []
  PrePlan : List String := []
  PreApply : List String := []
  TerraformVersion : Option Version := none
  deriving DecidableEq, Repr

/-- The `PreExecuteResult` value; omitted fields take their Go zero value. -/
structure PreExecuteResult where
  ProjectResult : ProjectResult := {}
  ProjectConfig : ProjectConfig := {}
  TerraformVersion : Option Version := none
  LockResponse : TryLockResponse := TryLockResponse.zero
  deriving DecidableEq, Repr

/-- The `Command` carried by the context: only its workspace is read here. -/
structure Command where
  Workspace : String
  deriving DecidableEq, Repr

/-- The `CommandContext` value: the fields `Execute` reads. -/
structure CommandContext where
  Command : Command
  Pull : PullRequest
  User : User
  deriving DecidableEq, Repr

/-- The `locking.Locker` interface, as state-passing functions over the lock
store state `σ`. -/
structure Locker (σ : Type) where
  TryLock : Project → String → PullRequest → User → σ → (TryLockResponse × Option GoError) × σ
  Unlock : String → σ → (Option ProjectLock × Option GoError) × σ

/-- One call made through the `Locker` interface. -/
inductive LockerCall where
  | TryLock (project : Project) (workspace : String) (pull : PullRequest) (user : User)
  | Unlock (key : String)
  deriving DecidableEq, Repr

/-- What one run of `Execute` leaves behind: the returned value, the lock
store state and the `Locker` calls made, in order. -/
structure PreExecuteRun (σ : Type) where
  result : PreExecuteResult
  store : σ
  calls : List LockerCall

/-- The conflict message of `Execute` (the `fmt.Sprintf` with `%d`). -/
def lockedByMessage (num : Int) : String :=
  "This project is currently locked by #" ++ toString num ++
    ". The locking plan must be applied or discarded before future plans can execute."

/-- Lines 64-70 of `Execute`: what runs once the conflict check has passed.
`err` is the variable `err` of `Execute` as it stands at line 66 (the call
that would reassign it, line 65, is commented out in the source). -/
def Execute.afterLock {σ : Type} (p : Locker σ) (err : Option GoError)
    (lockAttempt : TryLockResponse) (store : σ) (calls : List LockerCall) : PreExecuteRun σ :=
  match err with
  | some e =>
    let unlocked := p.Unlock lockAttempt.LockKey store
    { result := { ProjectResult := { Error := some e } }
      store := unlocked.2
      calls := calls ++ [LockerCall.Unlock lockAttempt.LockKey] }
  | none =>
    { result := { ProjectConfig := {}, TerraformVersion := none, LockResponse := lockAttempt }
      store := store
      calls := calls }

/-- The method `DefaultProjectPreExecutor.Execute` (project_pre_execute.go, lines 53-71). -/
def Execute {σ : Type} (p : Locker σ) (ctx : CommandContext) (project : Project)
    (store : σ) : PreExecuteRun σ :=
  let workspace := ctx.Command.Workspace
  let attempt := p.TryLock project workspace ctx.Pull ctx.User store
  let lockAttempt := attempt.1.1
  let err := attempt.1.2
  let calls := [LockerCall.TryLock project workspace ctx.Pull ctx.User]
  match err with
  | some e =>
    { result := { ProjectResult := { Error := some (GoError.wrap e "acquiring lock") } }
      store := attempt.2
      calls := calls }
  | none =>
    if !lockAttempt.LockAcquired && lockAttempt.CurrLock.Pull.Num != ctx.Pull.Num then
      { result := { ProjectResult := { Failure := lockedByMessage lockAttempt.CurrLock.Pull.Num } }
        store := attempt.2
        calls := calls }
    else
      Execute.afterLock p err lockAttempt attempt.2 calls

/-! ## Stages (`repoconfig.go`) -/

/-- The `Step` interface: `Run() (string, error)`, acting on a world `ω`
(executor, file system, anything a step touches). -/
structure Step (ω : Type) where
  Run : ω → (String × Option GoError) × ω

/-- The `ApplyRequirement` interface: `IsMet() (bool, string)`. -/
structure ApplyRequirement where
  IsMet : Bool × String

/-- The `PlanStage` struct. -/
structure PlanStage (ω : Type) where
  Steps : List (Step ω)

/-- The `ApplyStage` struct. -/
structure ApplyStage (ω : Type) where
  Steps : List (Step ω)
  ApplyRequirements : List ApplyRequirement

/-- The `for _, step := range p.Steps` loop of `PlanStage.Run` (lines 86-96),
`outputs` being the accumulator variable. -/
def PlanStage.loop {ω : Type} : List (Step ω) → String → ω → (String × Option GoError) × ω
  | [], outputs, w => ((outputs, none), w)
  | step :: rest, outputs, w =>
    let r := step.Run w
    match r.1.2 with
    | some err => ((outputs, some err), r.2)
    | none =>
      if r.1.1 != "" then PlanStage.loop rest (outputs ++ ("\n" ++ r.1.1)) r.2
      else PlanStage.loop rest outputs r.2

/-- The method `PlanStage.Run` (repoconfig.go, lines 84-97). -/
def PlanStage.Run {ω : Type} (p : PlanStage ω) (w : ω) : (String × Option GoError) × ω :=
  PlanStage.loop p.Steps "" w

/-- The `for _, step := range a.Steps` loop of `ApplyStage.Run` (lines 101-111). -/
def ApplyStage.loop {ω : Type} : List (Step ω) → String → ω → (String × Option GoError) × ω
  | [], outputs, w => ((outputs, none), w)
  | step :: rest, outputs, w =>
    let r := step.Run w
    match r.1.2 with
    | some err => ((outputs, some err), r.2)
    | none =>
      if r.1.1 != "" then ApplyStage.loop rest (outputs ++ ("\n" ++ r.1.1)) r.2
      else ApplyStage.loop rest outputs r.2

/-- The method `ApplyStage.Run` (repoconfig.go, lines 99-112). -/
def ApplyStage.Run {ω : Type} (a : ApplyStage ω) (w : ω) : (String × Option GoError) × ω :=
  ApplyStage.loop a.Steps "" w

/-- Reference semantics of "every step succeeds": the step outputs in order
and the world they leave, or `none` as soon as one step returns an error.
It is stated independently of `PlanStage.Run` and `ApplyStage.Run` and is
used to phrase their specifications. -/
def stepsSucceed {ω : Type} : List (Step ω) → ω → Option (List String × ω)
  | [], w => some ([], w)
  | step :: rest, w =>
    let r := step.Run w
    match r.1.2 with
    | some _ => none
    | none =>
      match stepsSucceed rest r.2 with
      | none => none
      | some (outs, w2) => some (r.1.1 :: outs, w2)

/-- The output the specification promises for successful step outputs: the
non-empty ones, in order, joined by a single newline. -/
def joinNonEmpty (outs : List String) : String :=
  "\n".intercalate (outs.filter (fun o => o != ""))

/-! ## The plan step -/

/-- The `StepMeta` struct (repoconfig.go, lines 231-249), without the logger
and the executor handle, which `Run` below receives as an argument. -/
structure StepMeta where
  Workspace : String
  AbsolutePath : String
  DirRelativeToRepoRoot : String
  TerraformVersion : Option Version
  ExtraCommentArgs : List String
  Username : String
  deriving DecidableEq, Repr

/-- One `RunCommandWithVersion` call, as the tests verify it. -/
structure ExecCall where
  path : String
  args : List String
  version : Option Version
  workspace : String
  deriving DecidableEq, Repr

/-- The `TerraformExec` interface (repoconfig.go, lines 251-253) over an
executor state `σ`, together with the file-existence test of the host. -/
structure TerraformExec (σ : Type) where
  RunCommandWithVersion : String → List String → Option Version → String → σ →
    (String × Option GoError) × σ
  FileExists : String → σ → Bool

/-- The world a step runs in: the executor state and the commands issued so far. -/
structure TfWorld (σ : Type) where
  state : σ
  calls : List ExecCall

/-- Issue one command to the executor and record it. -/
def TerraformExec.call {σ : Type} (tf : TerraformExec σ) (path : String) (args : List String)
    (v : Option Version) (workspace : String) (w : TfWorld σ) :
    (String × Option GoError) × TfWorld σ :=
  let r := tf.RunCommandWithVersion path args v workspace w.state
  (r.1, { state := r.2
          calls := w.calls ++
            [{ path := path, args := args, version := v, workspace := workspace }] })

/-- Strict order on versions, segment by segment. -/
def Version.lt (a b : Version) : Bool :=
  decide (a.major < b.major) ||
    (a.major == b.major &&
      (decide (a.minor < b.minor) || (a.minor == b.minor && decide (a.patch < b.patch))))

/-- Canonical string of a version, `major.minor.patch`. -/
def Version.String (v : Version) : String :=
  toString v.major ++ "." ++ toString v.minor ++ "." ++ toString v.patch

/-- The `PlanStep` struct as the tests build it: its extra arguments and meta. -/
structure PlanStep where
  ExtraArgs : List String
  Meta : StepMeta
  deriving DecidableEq, Repr

/-- Modelled from the spec: the minimum version with workspace support
(section 4.3, item 1), a constant of the missing `plan_step.go`. -/
def workspaceThreshold : Version := { major := 0, minor := 9, patch := 0 }

/-- Modelled from the spec: the subcommand family of `plan_step.go`
(section 4.3, item 4): `env` from 0.9.0 up to, not including, 0.10.0 and
`workspace` from 0.10.0 on. -/
def workspaceCommand (v : Version) : String :=
  if v.lt { major := 0, minor := 10, patch := 0 } then "env" else "workspace"

/-- Modelled from the spec: how `plan_step.go` reads the output of
`workspace show`, which ends in a newline (`"workspace\n"` in
`TestRun_NoWorkspaceSwitchIfNotNecessary`): one trailing newline is dropped. -/
def trimTrailingNewline (s : String) : String :=
  match s.data.reverse with
  | c :: rest => if c == Char.ofNat 10 then String.mk rest.reverse else s
  | [] => s

/-- Modelled from the spec: the workspace handling of the missing
`plan_step.go` (section 4.3, items 1-4).  Below 0.9.0 a workspace other than
`default` is an error and `default` needs no command; from 0.9.0 on
`workspace show` is queried, an equal answer ends the handling, otherwise the
version's `select` is tried and, if it fails, the version's `new`.  A failing
`workspace show` is returned as the step's error. -/
def PlanStep.switchWorkspace {σ : Type} (tf : TerraformExec σ) (s : PlanStep) (v : Version)
    (w : TfWorld σ) : Option GoError × TfWorld σ :=
  if v.lt workspaceThreshold then
    if s.Meta.Workspace != "default" then
      (some (GoError.new ("terraform version " ++ v.String ++ " does not support workspaces")), w)
    else (none, w)
  else
    let shown := tf.call s.Meta.AbsolutePath ["workspace", "show"] (some v) s.Meta.Workspace w
    match shown.1.2 with
    | some err => (some err, shown.2)
    | none =>
      if trimTrailingNewline shown.1.1 == s.Meta.Workspace then (none, shown.2)
      else
        let selected := tf.call s.Meta.AbsolutePath
          [workspaceCommand v, "select", "-no-color", s.Meta.Workspace] (some v) s.Meta.Workspace
          shown.2
        match selected.1.2 with
        | none => (none, selected.2)
        | some _ =>
          let created := tf.call s.Meta.AbsolutePath
            [workspaceCommand v, "new", "-no-color", s.Meta.Workspace] (some v) s.Meta.Workspace
            selected.2
          (created.1.2, created.2)

/-- Modelled from the spec: the plan command of the missing `plan_step.go`
(section 4.3, item 5), given whether `env/<workspace>.tfvars` exists. -/
def PlanStep.planArgs (s : PlanStep) (envFileExists : Bool) : List String :=
  let planFile := s.Meta.AbsolutePath ++ "/" ++ s.Meta.Workspace ++ ".tfplan"
  let userVar := "atlantis_user=" ++ s.Meta.Username
  let tfPlanCmd :=
    ["plan", "-refresh", "-no-color", "-out", planFile, "-var", userVar] ++ s.ExtraArgs ++
      s.Meta.ExtraCommentArgs
  if envFileExists then
    tfPlanCmd ++ ["-var-file", s.Meta.AbsolutePath ++ "/env/" ++ s.Meta.Workspace ++ ".tfvars"]
  else tfPlanCmd

/-- Modelled from the spec: `PlanStep.Run` of the missing `plan_step.go`
(section 4.3, "Plan"): the workspace handling, then the plan command, whose
output and error are returned.  The spec describes `Run` for a resolved
version only; without one the model gives no result. -/
def PlanStep.Run {σ : Type} (tf : TerraformExec σ) (s : PlanStep) (w : TfWorld σ) :
    Option ((String × Option GoError) × TfWorld σ) :=
  match s.Meta.TerraformVersion with
  | none => none
  | some v =>
    let switched := PlanStep.switchWorkspace tf s v w
    match switched.1 with
    | some err => some (("", some err), switched.2)
    | none =>
      let envFile := s.Meta.AbsolutePath ++ "/env/" ++ s.Meta.Workspace ++ ".tfvars"
      some (tf.call s.Meta.AbsolutePath (s.planArgs (tf.FileExists envFile switched.2.state))
        (some v) s.Meta.Workspace switched.2)

/-! ## The apply step -/

/-- The `ApplyStep` struct as the tests build it: its extra arguments and meta. -/
structure ApplyStep where
  ExtraArgs : List String
  Meta : StepMeta
  deriving DecidableEq, Repr

/-- Modelled from the spec: the plan file the missing `apply_step.go` looks
for, `<absolutePath>/<workspace>.tfplan` (section 4.3, "Apply"; section 6,
plan-file layout). -/
def ApplyStep.planPath (s : ApplyStep) : String :=
  s.Meta.AbsolutePath ++ "/" ++ s.Meta.Workspace ++ ".tfplan"

/-- Modelled from the spec: `ApplyStep.Run` of the missing `apply_step.go`
(section 4.3, "Apply").  Without the plan file it fails at once with the
"no plan found" message and issues no command; otherwise it issues
`apply -no-color`, the extra arguments, the comment arguments and the plan
file path, against the step's version and workspace, and returns what the
executor returns. -/
def ApplyStep.Run {σ : Type} (tf : TerraformExec σ) (s : ApplyStep) (w : TfWorld σ) :
    (String × Option GoError) × TfWorld σ :=
  if !tf.FileExists s.planPath w.state then
    (("", some (GoError.new ("no plan found at path \"" ++ s.Meta.DirRelativeToRepoRoot ++
      "\" and workspace \"" ++ s.Meta.Workspace ++ "\"–did you run plan?"))), w)
  else
    tf.call s.Meta.AbsolutePath
      (["apply", "-no-color"] ++ s.ExtraArgs ++ s.Meta.ExtraCommentArgs ++ [s.planPath])
      s.Meta.TerraformVersion s.Meta.Workspace w

/-! ## The pipeline builder (`repoconfig.go`) -/

/-- The constant `AtlantisYAMLFilename` (repoconfig.go, line 14). -/
def AtlantisYAMLFilename : String := "atlantis.yaml"

/-- The `AutoPlan` struct (repoconfig.go, lines 50-53). -/
structure AutoPlan where
  WhenModified : List String
  Enabled : Bool
  deriving DecidableEq, Repr

/-- The `Project` struct of package `repoconfig` (repoconfig.go, lines 41-48):
one project entry of `atlantis.yaml`. -/
structure Repoconfig.Project where
  Dir : String
  Workspace : String
  Pipeline : String
  TerraformVersion : String
  AutoPlan : AutoPlan
  ApplyRequirements : List String
  deriving DecidableEq, Repr

/-- The `Stage` struct (repoconfig.go, lines 60-62), a step being kept as the
text it has in the file (a built-in keyword or a custom command). -/
structure Repoconfig.Stage where
  Steps : List String
  deriving DecidableEq, Repr

/-- The `Pipeline` struct (repoconfig.go, lines 55-58). -/
structure Repoconfig.Pipeline where
  Apply : Repoconfig.Stage
  Plan : Repoconfig.Stage
  deriving DecidableEq, Repr

/-- The `AtlantisYAML` struct (repoconfig.go, lines 16-20); the pipelines map
is an association list. -/
structure AtlantisYAML where
  Version : Int
  Projects : List Repoconfig.Project
  Pipelines : List (String × Repoconfig.Pipeline)
  deriving DecidableEq, Repr

/-- The `InitStep` struct as `BuildPlanStage` builds it: extra arguments and meta. -/
structure InitStep where
  ExtraArgs : List String
  Meta : StepMeta
  deriving DecidableEq, Repr

/-- A value of interface type `Step` as the builders create it: a pointer to
an `InitStep`, a `PlanStep` or an `ApplyStep`. -/
inductive BuiltStep where
  | InitStep (s : InitStep)
  | PlanStep (s : PlanStep)
  | ApplyStep (s : ApplyStep)
  deriving DecidableEq, Repr

/-- The `PlanStage` value `BuildPlanStage` returns, its steps given by their
concrete types. -/
structure BuiltPlanStage where
  Steps : List BuiltStep
  deriving DecidableEq, Repr

/-- The `ApplyStage` value `BuildApplyStage` returns; `ApplyRequirements` is
the list of requirements (`nil` is the empty list). -/
structure BuiltApplyStage where
  Steps : List BuiltStep
  ApplyRequirements : List (Bool × String)
  deriving DecidableEq, Repr

/-- The `Reader` struct (repoconfig.go, lines 114-117), without the executor
handle (see `StepMeta`). -/
structure Reader where
  DefaultTFVersion : Option Version
  deriving DecidableEq, Repr

/-- What the builders use from outside this file: `ioutil.ReadFile` on the
repository checkout (content and error), `os.IsNotExist`, `filepath.Join`,
the method `Reader.Parse` (its body is unfinished in the source) and the
package function `parse` that `BuildApplyStage` calls (declared elsewhere). -/
structure ConfigHost where
  ReadFile : String → String × Option GoError
  IsNotExist : GoError → Bool
  Join : String → String → String
  Parse : String → AtlantisYAML × Option GoError
  parse : String → AtlantisYAML × Option GoError

/-- The method `Reader.validateConfig` (repoconfig.go, lines 216-218). -/
def Reader.validateConfig (_r : Reader) (_yaml : AtlantisYAML) : Option GoError :=
  none

/-- The method `Reader.BuildPlanStage` (repoconfig.go, lines 119-169).  In the
first branch the returned `err` is the one declared by
`config, err := r.Parse(configData)`. -/
def Reader.BuildPlanStage (r : Reader) (host : ConfigHost) (repoDir : String)
    (workspace : String) (relProjectPath : String) (extraCommentArgs : List String)
    (username : String) : Option BuiltPlanStage × Option GoError :=
  let configFile := host.Join repoDir AtlantisYAMLFilename
  let read := host.ReadFile configFile
  let configData := read.1
  match read.2 with
  | none =>
    let parsed := host.Parse configData
    let config := parsed.1
    let err := parsed.2
    match err with
    | some e => (none, some e)
    | none =>
      match r.validateConfig config with
      | some e => (none, some e)
      | none => (none, err)
  | some err =>
    if host.IsNotExist err then
      let stepMeta : StepMeta :=
        { Workspace := workspace
          AbsolutePath := host.Join repoDir relProjectPath
          DirRelativeToRepoRoot := relProjectPath
          TerraformVersion := r.DefaultTFVersion
          ExtraCommentArgs := extraCommentArgs
          Username := username }
      (some { Steps := [BuiltStep.InitStep { ExtraArgs := [], Meta := stepMeta },
                        BuiltStep.PlanStep { ExtraArgs := [], Meta := stepMeta }] }, none)
    else
      (none, some (GoError.wrap err ("unable to read " ++ AtlantisYAMLFilename ++ " file")))

/-- The method `Reader.BuildApplyStage` (repoconfig.go, lines 170-214).  In the
first branch the returned `err` is the one declared by
`config, err := parse(string(configData))`. -/
def Reader.BuildApplyStage (r : Reader) (host : ConfigHost) (repoDir : String)
    (workspace : String) (relProjectPath : String) (extraCommentArgs : List String)
    (username : String) : Option BuiltApplyStage × Option GoError :=
  let configFile := host.Join repoDir AtlantisYAMLFilename
  let read := host.ReadFile configFile
  let configData := read.1
  match read.2 with
  | none =>
    let parsed := host.parse configData
    let config := parsed.1
    let err := parsed.2
    match err with
    | some e => (none, some e)
    | none =>
      match r.validateConfig config with
      | some e => (none, some e)
      | none => (none, err)
  | some err =>
    if host.IsNotExist err then
      let stepMeta : StepMeta :=
        { Workspace := workspace
          AbsolutePath := host.Join repoDir relProjectPath
          DirRelativeToRepoRoot := relProjectPath
          TerraformVersion := r.DefaultTFVersion
          ExtraCommentArgs := extraCommentArgs
          Username := username }
      (some { Steps := [BuiltStep.ApplyStep { ExtraArgs := [], Meta := stepMeta }]
              ApplyRequirements := [] }, none)
    else
      (none, some (GoError.wrap err ("unable to read " ++ AtlantisYAMLFilename ++ " file")))

/-! ## Expected values used in the statements -/

/-- The accumulated output in the form the loops build it: every non-empty
output preceded by a newline. -/
def newlinePrefixed : List String → String
  | [] => ""
  | o :: outs => if o != "" then ("\n" ++ o) ++ newlinePrefixed outs else newlinePrefixed outs

/-- The `workspace show` call of a step at version `v`. -/
def showCall (s : PlanStep) (v : Version) : ExecCall :=
  { path := s.Meta.AbsolutePath, args := ["workspace", "show"], version := some v,
    workspace := s.Meta.Workspace }

/-- The `select` call of a step at version `v` in the named subcommand family. -/
def selectCall (family : String) (s : PlanStep) (v : Version) : ExecCall :=
  { path := s.Meta.AbsolutePath, args := [family, "select", "-no-color", s.Meta.Workspace],
    version := some v, workspace := s.Meta.Workspace }

/-- The plan call of a step at version `v`, given whether the var file exists. -/
def planCall (s : PlanStep) (v : Version) (envFileExists : Bool) : ExecCall :=
  { path := s.Meta.AbsolutePath, args := s.planArgs envFileExists, version := some v,
    workspace := s.Meta.Workspace }

/-- The path of the optional var file of a step. -/
def envFilePath (s : PlanStep) : String :=
  s.Meta.AbsolutePath ++ "/env/" ++ s.Meta.Workspace ++ ".tfvars"

/-- The result the executor gives for a call in a given state. -/
def TerraformExec.run {σ : Type} (tf : TerraformExec σ) (c : ExecCall) (st : σ) :
    (String × Option GoError) × σ :=
  tf.RunCommandWithVersion c.path c.args c.version c.workspace st

/-- The executor state after the given calls were issued in order. -/
def TerraformExec.stateAfter {σ : Type} (tf : TerraformExec σ) : List ExecCall → σ → σ
  | [], st => st
  | c :: cs, st => TerraformExec.stateAfter tf cs (tf.run c st).2

/-- The `new` call of a step at version `v` in the named subcommand family. -/
def newCall (family : String) (s : PlanStep) (v : Version) : ExecCall :=
  { path := s.Meta.AbsolutePath, args := [family, "new", "-no-color", s.Meta.Workspace],
    version := some v, workspace := s.Meta.Workspace }

/-- The concatenation, in order, of a newline followed by the output, over
the non-empty outputs. -/
def prefixedOutputs (outs : List String) : String :=
  String.join ((outs.filter (fun o => o != "")).map (fun o => "\n" ++ o))

/-- The length of a string as Go's `len` gives it: its size in bytes. -/
def goLen (s : String) : Nat := s.utf8ByteSize

/-! ## Concrete inputs used in the checks below -/

/-- A pull request with the given number. -/
def pullNo (n : Int) : PullRequest := { Num := n, Author := "lkysow", URL := "" }

/-- A command context for pull request `n` on workspace `default`. -/
def ctxFor (n : Int) : CommandContext :=
  { Command := { Workspace := "default" }, Pull := pullNo n, User := { Username := "lkysow" } }

/-- A project of the example repository. -/
def exampleProject : Project := { RepoFullName := "owner/repo", Path := "." }

/-- A lock on the example project held by pull request `n`. -/
def lockHeldBy (n : Int) : ProjectLock :=
  { Project := exampleProject, Pull := pullNo n, User := { Username := "lkysow" },
    Workspace := "default" }

/-- A locker over a store that counts `Unlock` calls; `TryLock` always gives
the response and error it is built with. -/
def fixedLocker (resp : TryLockResponse) (err : Option GoError) : Locker Nat where
  TryLock := fun _ _ _ _ store => ((resp, err), store)
  Unlock := fun _ store => ((none, none), store + 1)

/-- A step that appends its name to the world and returns the given output and error. -/
def namedStep (name : String) (out : String) (err : Option GoError) : Step (List String) where
  Run := fun w => ((out, err), w ++ [name])

/-- A plan step that fails with "exit status 1" after printing "ignored". -/
def failingPlan : Step (List String) :=
  namedStep "plan" "ignored" (some (GoError.new "exit status 1"))

/-- The executor of the tests: every command gives `"output"`, except
`workspace show`, which gives `shown`; no file exists. -/
def testExec (shown : String) : TerraformExec Unit where
  RunCommandWithVersion := fun _ args _ _ st =>
    if args = ["workspace", "show"] then ((shown, none), st) else (("output", none), st)
  FileExists := fun _ _ => false

/-- The step of `plan_step_test.go` for a workspace and a version. -/
def testPlanStep (workspace : String) (v : Version) : PlanStep :=
  { ExtraArgs := ["extra", "args"]
    Meta :=
      { Workspace := workspace, AbsolutePath := "/path", DirRelativeToRepoRoot := ".",
        TerraformVersion := some v, ExtraCommentArgs := ["comment", "args"],
        Username := "username" } }

/-- The empty world: unit executor state, no command issued yet. -/
def emptyWorld : TfWorld Unit := { state := (), calls := [] }

/-- The executor of `TestRun_CreatesWorkspace`: `workspace show` answers
"diffworkspace\n", every `select` fails with "workspace does not exist",
every other command gives "output"; no file exists. -/
def createExec : TerraformExec Unit where
  RunCommandWithVersion := fun _ args _ _ st =>
    if args = ["workspace", "show"] then (("diffworkspace\n", none), st)
    else if args.get? 1 = some "select" then
      (("", some (GoError.new "workspace does not exist")), st)
    else (("output", none), st)
  FileExists := fun _ _ => false

/-- The executor of `TestRun_AddsEnvVarFile`: `workspace show` answers
"workspace\n", every other command gives "output", and the only file is
`/path/env/workspace.tfvars`. -/
def varFileExec : TerraformExec Unit where
  RunCommandWithVersion := fun _ args _ _ st =>
    if args = ["workspace", "show"] then (("workspace\n", none), st) else (("output", none), st)
  FileExists := fun path _ => path == "/path/env/workspace.tfvars"

/-- The executor of `TestRun_Success`: every command gives "output" and the
only file is the plan file `/path/workspace.tfplan`. -/
def planFileExec : TerraformExec Unit where
  RunCommandWithVersion := fun _ _ _ _ st => (("output", none), st)
  FileExists := fun path _ => path == "/path/workspace.tfplan"

/-- The step of `apply_step_test.go` at a project path and a version. -/
def testApplyStep (absolutePath : String) (v : Option Version) : ApplyStep :=
  { ExtraArgs := ["extra", "args"]
    Meta :=
      { Workspace := "workspace", AbsolutePath := absolutePath, DirRelativeToRepoRoot := ".",
        TerraformVersion := v, ExtraCommentArgs := ["comment", "args"],
        Username := "username" } }

/-- The error of reading a file that is not there. -/
def notExistError : GoError := GoError.new "open /repo/atlantis.yaml: no such file or directory"

/-- The error of reading a file without the permission to. -/
def permissionError : GoError := GoError.new "open /repo/atlantis.yaml: permission denied"

/-- An `atlantis.yaml` of version 2 with no project and no pipeline. -/
def emptyConfig : AtlantisYAML := { Version := 2, Projects := [], Pipelines := [] }

/-- A host whose every read gives the content and error it is built with;
both parsers accept any content and give `emptyConfig`. -/
def fixedHost (content : String) (err : Option GoError) : ConfigHost where
  ReadFile := fun _ => (content, err)
  IsNotExist := fun e => e == notExistError
  Join := fun dir name => dir ++ "/" ++ name
  Parse := fun _ => (emptyConfig, none)
  parse := fun _ => (emptyConfig, none)

/-- A reader whose default Terraform version is 0.11.4. -/
def testReader : Reader := { DefaultTFVersion := some { major := 0, minor := 11, patch := 4 } }

/-- An apply requirement that is not met. -/
def unmetRequirement : ApplyRequirement := { IsMet := (false, "pull request must be approved") }

/-! ## The pre-executor -/

/-- C1: when `TryLock` returns no error, `LockAcquired = false` and a current
lock of pull request `n` other than the requesting one, `Execute` returns the
"currently locked by #n" failure, a nil error and an empty lock response; the
only `Locker` call is the `TryLock` (no `Unlock`), and the lock store is the
one `TryLock` left. -/
theorem execute_conflict_failure {σ : Type} (p : Locker σ) (ctx : CommandContext)
    (project : Project) (store : σ) (n : Int)
    (herr : (p.TryLock project ctx.Command.Workspace ctx.Pull ctx.User store).1.2 = none)
    (hacq : (p.TryLock project ctx.Command.Workspace ctx.Pull ctx.User store).1.1.LockAcquired
      = false)
    (hnum : (p.TryLock project ctx.Command.Workspace ctx.Pull ctx.User store).1.1.CurrLock.Pull.Num
      = n)
    (hne : n ≠ ctx.Pull.Num) :
    (Execute p ctx project store).result.ProjectResult.Failure =
        "This project is currently locked by #" ++ toString n ++
          ". The locking plan must be applied or discarded before future plans can execute."
      ∧ (Execute p ctx project store).result.ProjectResult.Error = none
      ∧ (Execute p ctx project store).result.LockResponse = TryLockResponse.zero
      ∧ (Execute p ctx project store).calls =
          [LockerCall.TryLock project ctx.Command.Workspace ctx.Pull ctx.User]
      ∧ (Execute p ctx project store).store =
          (p.TryLock project ctx.Command.Workspace ctx.Pull ctx.User store).2 := by
  have hcond : (!(p.TryLock project ctx.Command.Workspace ctx.Pull ctx.User store).1.1.LockAcquired
      && (p.TryLock project ctx.Command.Workspace ctx.Pull ctx.User store).1.1.CurrLock.Pull.Num
        != ctx.Pull.Num) = true := by
    rw [hacq, hnum]
    simpa using hne
  simp only [Execute, herr, hcond, if_true]
  rw [hnum]
  refine ⟨?_, ?_, ?_, ?_, ?_⟩ <;> first | rfl | trivial

/-- C1 at a concrete input: pull request 3 asks for a lock held by pull request 7. -/
theorem execute_conflict_failure_witness :
    (Execute (fixedLocker { TryLockResponse.zero with CurrLock := lockHeldBy 7 } none)
        (ctxFor 3) exampleProject 0).result.ProjectResult.Failure =
        "This project is currently locked by #" ++ toString (7 : Int) ++
          ". The locking plan must be applied or discarded before future plans can execute."
      ∧ (Execute (fixedLocker { TryLockResponse.zero with CurrLock := lockHeldBy 7 } none)
        (ctxFor 3) exampleProject 0).result.ProjectResult.Error = none
      ∧ (Execute (fixedLocker { TryLockResponse.zero with CurrLock := lockHeldBy 7 } none)
        (ctxFor 3) exampleProject 0).result.LockResponse = TryLockResponse.zero
      ∧ (Execute (fixedLocker { TryLockResponse.zero with CurrLock := lockHeldBy 7 } none)
        (ctxFor 3) exampleProject 0).calls =
          [LockerCall.TryLock exampleProject "default" (pullNo 3) { Username := "lkysow" }]
      ∧ (Execute (fixedLocker { TryLockResponse.zero with CurrLock := lockHeldBy 7 } none)
        (ctxFor 3) exampleProject 0).store = 0 :=
  execute_conflict_failure
    (fixedLocker { TryLockResponse.zero with CurrLock := lockHeldBy 7 } none)
    (ctxFor 3) exampleProject 0 7 rfl rfl rfl (by decide)

/-- C2: when `TryLock` returns an error `e`, `Execute` returns that error
wrapped with the context "acquiring lock" (message `acquiring lock: <e>`), an
empty failure and an empty lock response, and the `TryLock` is the only
`Locker` call it makes. -/
theorem execute_trylock_error {σ : Type} (p : Locker σ) (ctx : CommandContext)
    (project : Project) (store : σ) (e : GoError)
    (herr : (p.TryLock project ctx.Command.Workspace ctx.Pull ctx.User store).1.2 = some e) :
    (Execute p ctx project store).result.ProjectResult.Error =
        some (GoError.wrap e "acquiring lock")
      ∧ (GoError.wrap e "acquiring lock").Error = "acquiring lock: " ++ e.Error
      ∧ (Execute p ctx project store).result.ProjectResult.Failure = ""
      ∧ (Execute p ctx project store).result.LockResponse = TryLockResponse.zero
      ∧ (Execute p ctx project store).calls =
          [LockerCall.TryLock project ctx.Command.Workspace ctx.Pull ctx.User]
      ∧ (Execute p ctx project store).store =
          (p.TryLock project ctx.Command.Workspace ctx.Pull ctx.User store).2 := by
  simp only [Execute, herr]
  refine ⟨?_, ?_, ?_, ?_, ?_, ?_⟩ <;> first | rfl | trivial

/-- C2 at a concrete input: the lock store answers "db is down". -/
theorem execute_trylock_error_witness :
    (Execute (fixedLocker TryLockResponse.zero (some (GoError.new "db is down")))
        (ctxFor 3) exampleProject 0).result.ProjectResult.Error =
        some (GoError.wrap (GoError.new "db is down") "acquiring lock")
      ∧ (GoError.wrap (GoError.new "db is down") "acquiring lock").Error =
        "acquiring lock: " ++ (GoError.new "db is down").Error
      ∧ (Execute (fixedLocker TryLockResponse.zero (some (GoError.new "db is down")))
        (ctxFor 3) exampleProject 0).result.ProjectResult.Failure = ""
      ∧ (Execute (fixedLocker TryLockResponse.zero (some (GoError.new "db is down")))
        (ctxFor 3) exampleProject 0).result.LockResponse = TryLockResponse.zero
      ∧ (Execute (fixedLocker TryLockResponse.zero (some (GoError.new "db is down")))
        (ctxFor 3) exampleProject 0).calls =
          [LockerCall.TryLock exampleProject "default" (pullNo 3) { Username := "lkysow" }]
      ∧ (Execute (fixedLocker TryLockResponse.zero (some (GoError.new "db is down")))
        (ctxFor 3) exampleProject 0).store = 0 :=
  execute_trylock_error (fixedLocker TryLockResponse.zero (some (GoError.new "db is down")))
    (ctxFor 3) exampleProject 0 (GoError.new "db is down") rfl

/-- C3 (the code at the failing input): `TryLock` answers
`TryLockResponse{LockAcquired: true, LockKey: "k"}` with no error.  `Execute`
runs no setup step after acquiring the lock (the call on line 65 is commented
out), so nothing can fail and be revoked: the `TryLock` is its only `Locker`
call, the store records no `Unlock`, and it returns the acquired response with
a nil error, an empty `ProjectConfig` and a nil `TerraformVersion`. -/
theorem execute_acquired_runs_no_setup :
    (Execute (fixedLocker { TryLockResponse.zero with LockAcquired := true, LockKey := "k" }
        none) (ctxFor 3) exampleProject 0).calls =
        [LockerCall.TryLock exampleProject "default" (pullNo 3) { Username := "lkysow" }]
      ∧ LockerCall.Unlock "k" ∉
        (Execute (fixedLocker { TryLockResponse.zero with LockAcquired := true, LockKey := "k" }
          none) (ctxFor 3) exampleProject 0).calls
      ∧ (Execute (fixedLocker { TryLockResponse.zero with LockAcquired := true, LockKey := "k" }
        none) (ctxFor 3) exampleProject 0).store = 0
      ∧ (Execute (fixedLocker { TryLockResponse.zero with LockAcquired := true, LockKey := "k" }
        none) (ctxFor 3) exampleProject 0).result.ProjectResult.Error = none
      ∧ (Execute (fixedLocker { TryLockResponse.zero with LockAcquired := true, LockKey := "k" }
        none) (ctxFor 3) exampleProject 0).result.LockResponse =
          { TryLockResponse.zero with LockAcquired := true, LockKey := "k" }
      ∧ (Execute (fixedLocker { TryLockResponse.zero with LockAcquired := true, LockKey := "k" }
        none) (ctxFor 3) exampleProject 0).result.ProjectConfig =
          { PreInit := [], PreGet := [], PrePlan := [], PreApply := [],
            TerraformVersion := none }
      ∧ (Execute (fixedLocker { TryLockResponse.zero with LockAcquired := true, LockKey := "k" }
        none) (ctxFor 3) exampleProject 0).result.TerraformVersion = none := by
  refine ⟨?_, ?_, ?_, ?_, ?_, ?_, ?_⟩ <;> decide

/-- C4: when `TryLock` returns a response `r` with no error and
`LockAcquired = true`, `Execute` returns `LockResponse = r` with neither
error nor failure set, and makes no `Unlock` call: the `TryLock` is its only
`Locker` call and the lock store is the one `TryLock` left. -/
theorem execute_lock_acquired {σ : Type} (p : Locker σ) (ctx : CommandContext)
    (project : Project) (store : σ) (r : TryLockResponse)
    (hr : (p.TryLock project ctx.Command.Workspace ctx.Pull ctx.User store).1.1 = r)
    (herr : (p.TryLock project ctx.Command.Workspace ctx.Pull ctx.User store).1.2 = none)
    (hacq : r.LockAcquired = true) :
    (Execute p ctx project store).result.LockResponse = r
      ∧ (Execute p ctx project store).result.ProjectResult.Error = none
      ∧ (Execute p ctx project store).result.ProjectResult.Failure = ""
      ∧ (Execute p ctx project store).calls =
          [LockerCall.TryLock project ctx.Command.Workspace ctx.Pull ctx.User]
      ∧ (Execute p ctx project store).store =
          (p.TryLock project ctx.Command.Workspace ctx.Pull ctx.User store).2 := by
  subst hr
  simp only [Execute, herr, hacq, Execute.afterLock]
  refine ⟨?_, ?_, ?_, ?_, ?_⟩ <;> rfl

/-- C4 at a concrete input: pull request 3 acquires the lock with key "k". -/
theorem execute_lock_acquired_witness :
    (Execute (fixedLocker
        { LockAcquired := true, CurrLock := lockHeldBy 3, LockKey := "k" } none)
        (ctxFor 3) exampleProject 0).result.LockResponse =
        { LockAcquired := true, CurrLock := lockHeldBy 3, LockKey := "k" }
      ∧ (Execute (fixedLocker
        { LockAcquired := true, CurrLock := lockHeldBy 3, LockKey := "k" } none)
        (ctxFor 3) exampleProject 0).result.ProjectResult.Error = none
      ∧ (Execute (fixedLocker
        { LockAcquired := true, CurrLock := lockHeldBy 3, LockKey := "k" } none)
        (ctxFor 3) exampleProject 0).result.ProjectResult.Failure = ""
      ∧ (Execute (fixedLocker
        { LockAcquired := true, CurrLock := lockHeldBy 3, LockKey := "k" } none)
        (ctxFor 3) exampleProject 0).calls =
          [LockerCall.TryLock exampleProject "default" (pullNo 3) { Username := "lkysow" }]
      ∧ (Execute (fixedLocker
        { LockAcquired := true, CurrLock := lockHeldBy 3, LockKey := "k" } none)
        (ctxFor 3) exampleProject 0).store = 0 :=
  execute_lock_acquired
    (fixedLocker { LockAcquired := true, CurrLock := lockHeldBy 3, LockKey := "k" } none)
    (ctxFor 3) exampleProject 0 _ rfl rfl rfl

/-! ## Stages -/

/-- Once a prefix of steps has succeeded, the plan loop continues on the rest
with the prefix outputs accumulated. -/
theorem planLoop_append {ω : Type} (pre rest : List (Step ω)) :
    ∀ (acc : String) (w : ω) (outs : List String) (w1 : ω),
      stepsSucceed pre w = some (outs, w1) →
      PlanStage.loop (pre ++ rest) acc w = PlanStage.loop rest (acc ++ newlinePrefixed outs) w1 := by
  induction pre with
  | nil =>
    intro acc w outs w1 h
    simp only [stepsSucceed, Option.some.injEq, Prod.mk.injEq] at h
    obtain ⟨rfl, rfl⟩ := h
    simp [newlinePrefixed]
  | cons step pre ih =>
    intro acc w outs w1 h
    simp only [stepsSucceed] at h
    cases hrun : (step.Run w).1.2 with
    | some e => simp [hrun] at h
    | none =>
      simp only [hrun] at h
      cases hrest : stepsSucceed pre (step.Run w).2 with
      | none => simp [hrest] at h
      | some r =>
        obtain ⟨outs2, w2⟩ := r
        simp only [hrest, Option.some.injEq, Prod.mk.injEq] at h
        obtain ⟨rfl, rfl⟩ := h
        simp only [List.cons_append, PlanStage.loop, hrun, newlinePrefixed]
        split
        · exact (ih _ _ _ _ hrest).trans (by rw [String.append_assoc])
        · exact ih _ _ _ _ hrest

/-- Once a prefix of steps has succeeded, the apply loop continues on the rest
with the prefix outputs accumulated. -/
theorem applyLoop_append {ω : Type} (pre rest : List (Step ω)) :
    ∀ (acc : String) (w : ω) (outs : List String) (w1 : ω),
      stepsSucceed pre w = some (outs, w1) →
      ApplyStage.loop (pre ++ rest) acc w =
        ApplyStage.loop rest (acc ++ newlinePrefixed outs) w1 := by
  induction pre with
  | nil =>
    intro acc w outs w1 h
    simp only [stepsSucceed, Option.some.injEq, Prod.mk.injEq] at h
    obtain ⟨rfl, rfl⟩ := h
    simp [newlinePrefixed]
  | cons step pre ih =>
    intro acc w outs w1 h
    simp only [stepsSucceed] at h
    cases hrun : (step.Run w).1.2 with
    | some e => simp [hrun] at h
    | none =>
      simp only [hrun] at h
      cases hrest : stepsSucceed pre (step.Run w).2 with
      | none => simp [hrest] at h
      | some r =>
        obtain ⟨outs2, w2⟩ := r
        simp only [hrest, Option.some.injEq, Prod.mk.injEq] at h
        obtain ⟨rfl, rfl⟩ := h
        simp only [List.cons_append, ApplyStage.loop, hrun, newlinePrefixed]
        split
        · exact (ih _ _ _ _ hrest).trans (by rw [String.append_assoc])
        · exact ih _ _ _ _ hrest

/-- C5: both stages are fail-fast.  If the steps `pre` all succeed (leaving
the world `w1`) and the next step `s` returns the error `e`, then a stage
whose steps are `pre`, `s` and any further steps `post` returns exactly `e`
with the output the stage of `pre` alone returns, and ends in the world `s`
left: whatever `post` is, none of it is run. -/
theorem stage_run_fail_fast {ω : Type} (pre post : List (Step ω)) (s : Step ω)
    (reqs : List ApplyRequirement) (w w1 : ω) (outs : List String) (e : GoError)
    (hpre : stepsSucceed pre w = some (outs, w1))
    (hs : (s.Run w1).1.2 = some e) :
    PlanStage.Run (PlanStage.mk (pre ++ s :: post)) w =
        (((PlanStage.Run (PlanStage.mk pre) w).1.1, some e), (s.Run w1).2)
      ∧ ApplyStage.Run (ApplyStage.mk (pre ++ s :: post) reqs) w =
        (((ApplyStage.Run (ApplyStage.mk pre reqs) w).1.1, some e), (s.Run w1).2) := by
  constructor
  · have h1 := planLoop_append pre (s :: post) "" w outs w1 hpre
    have h2 := planLoop_append pre [] "" w outs w1 hpre
    simp only [List.append_nil] at h2
    simp only [PlanStage.Run, h1, h2, PlanStage.loop, hs]
  · have h1 := applyLoop_append pre (s :: post) "" w outs w1 hpre
    have h2 := applyLoop_append pre [] "" w outs w1 hpre
    simp only [List.append_nil] at h2
    simp only [ApplyStage.Run, h1, h2, ApplyStage.loop, hs]

/-- C5 at a concrete input: of the steps init ("a"), plan (fails with
"exit status 1") and apply, the stage returns the output of init alone and the
error of plan, and the world records that apply was never run. -/
theorem stage_run_fail_fast_witness :
    PlanStage.Run (PlanStage.mk
          ([namedStep "init" "a" none] ++ failingPlan :: [namedStep "apply" "b" none])) []
        = (((PlanStage.Run (PlanStage.mk [namedStep "init" "a" none]) []).1.1,
            some (GoError.new "exit status 1")), (failingPlan.Run ["init"]).2)
      ∧ ApplyStage.Run (ApplyStage.mk
          ([namedStep "init" "a" none] ++ failingPlan :: [namedStep "apply" "b" none]) []) []
        = (((ApplyStage.Run (ApplyStage.mk [namedStep "init" "a" none] []) []).1.1,
            some (GoError.new "exit status 1")), (failingPlan.Run ["init"]).2) :=
  stage_run_fail_fast [namedStep "init" "a" none] [namedStep "apply" "b" none] failingPlan
    [] [] ["init"] ["a"] (GoError.new "exit status 1") rfl rfl

/-- C6 (the code at the failing input): a stage whose single step succeeds
with output "a" returns "\na", not the joined output "a"; with outputs "a"
and "b" it returns "\na\nb", not "a\nb".  Both stages behave alike. -/
theorem stage_run_leading_newline :
    (PlanStage.Run (PlanStage.mk [namedStep "s1" "a" none]) []).1 = ("\na", none)
      ∧ (ApplyStage.Run (ApplyStage.mk [namedStep "s1" "a" none] []) []).1 = ("\na", none)
      ∧ joinNonEmpty ["a"] = "a"
      ∧ (PlanStage.Run (PlanStage.mk [namedStep "s1" "a" none, namedStep "s2" "b" none]) []).1
          = ("\na\nb", none)
      ∧ (ApplyStage.Run (ApplyStage.mk [namedStep "s1" "a" none, namedStep "s2" "b" none] [])
          []).1 = ("\na\nb", none)
      ∧ joinNonEmpty ["a", "b"] = "a\nb" := by
  refine ⟨?_, ?_, ?_, ?_, ?_, ?_⟩ <;> decide

/-- C7: a stage with zero steps returns the empty string and a nil error
(and leaves the world untouched), for the plan stage and the apply stage. -/
theorem stage_run_no_steps {ω : Type} (reqs : List ApplyRequirement) (w : ω) :
    PlanStage.Run (PlanStage.mk []) w = (("", none), w)
      ∧ ApplyStage.Run (ApplyStage.mk [] reqs) w = (("", none), w) :=
  ⟨rfl, rfl⟩

/-! ## The plan step -/

/-- A version that is not below 0.10.0 is not below 0.9.0 either. -/
theorem Version.not_lt_nine_of_not_lt_ten (v : Version)
    (h : v.lt (Version.mk 0 10 0) = false) : v.lt (Version.mk 0 9 0) = false := by
  simp only [Version.lt, Bool.or_eq_false_iff, Bool.and_eq_false_imp, decide_eq_false_iff_not,
    beq_iff_eq] at h ⊢
  obtain ⟨h1, h2⟩ := h
  refine ⟨h1, fun hm => ?_⟩
  obtain ⟨h3, h4⟩ := h2 hm
  refine ⟨by omega, fun hn => ?_⟩
  omega

/-- C8: for every version below 0.9.0 and every workspace other than
"default", `PlanStep.Run` fails with the error
"terraform version X does not support workspaces", X being the version's
canonical string, and issues no command: the world (executor state and call
log) is returned unchanged. -/
theorem planstep_old_version_rejects_workspace {σ : Type} (tf : TerraformExec σ) (s : PlanStep)
    (v : Version) (w : TfWorld σ)
    (hv : s.Meta.TerraformVersion = some v)
    (hlt : v.lt (Version.mk 0 9 0) = true)
    (hws : s.Meta.Workspace ≠ "default") :
    PlanStep.Run tf s w =
      some (("", some (GoError.new
        ("terraform version " ++ v.String ++ " does not support workspaces"))), w) := by
  have hb : (s.Meta.Workspace != "default") = true := by simpa using hws
  simp only [PlanStep.Run, hv, PlanStep.switchWorkspace, workspaceThreshold, hlt, hb, if_true]

/-- C8 at the input of `TestRun_ErrWorkspaceIn08`: version 0.8 (canonically
0.8.0) and workspace "notdefault". -/
theorem planstep_old_version_rejects_workspace_witness :
    PlanStep.Run (testExec "output") (testPlanStep "notdefault" (Version.mk 0 8 0)) emptyWorld =
      some (("", some (GoError.new
        ("terraform version " ++ (Version.mk 0 8 0).String ++ " does not support workspaces"))),
        emptyWorld)
      ∧ (Version.mk 0 8 0).String = "0.8.0" :=
  ⟨planstep_old_version_rejects_workspace (testExec "output")
      (testPlanStep "notdefault" (Version.mk 0 8 0)) (Version.mk 0 8 0) emptyWorld rfl
      (by decide) (by decide),
    by decide⟩

/-- When the workspace handling succeeds, `PlanStep.Run` is the plan command
issued in the world the handling left. -/
theorem PlanStep.run_of_switched {σ : Type} (tf : TerraformExec σ) (s : PlanStep) (v : Version)
    (w w1 : TfWorld σ) (hv : s.Meta.TerraformVersion = some v)
    (hsw : PlanStep.switchWorkspace tf s v w = (none, w1)) :
    PlanStep.Run tf s w =
      some (tf.call s.Meta.AbsolutePath (s.planArgs (tf.FileExists (envFilePath s) w1.state))
        (some v) s.Meta.Workspace w1) := by
  simp only [PlanStep.Run, hv, hsw, envFilePath]

/-- When `workspace show` succeeds and answers the target workspace, the
workspace handling is over after that one call. -/
theorem PlanStep.switchWorkspace_on_target {σ : Type} (tf : TerraformExec σ) (s : PlanStep)
    (v : Version) (w : TfWorld σ)
    (h9 : v.lt (Version.mk 0 9 0) = false)
    (hshow : (tf.RunCommandWithVersion s.Meta.AbsolutePath ["workspace", "show"] (some v)
      s.Meta.Workspace w.state).1.2 = none)
    (hsame : trimTrailingNewline (tf.RunCommandWithVersion s.Meta.AbsolutePath
      ["workspace", "show"] (some v) s.Meta.Workspace w.state).1.1 = s.Meta.Workspace) :
    PlanStep.switchWorkspace tf s v w =
      (none, (tf.call s.Meta.AbsolutePath ["workspace", "show"] (some v) s.Meta.Workspace w).2) := by
  have hb : (trimTrailingNewline (tf.RunCommandWithVersion s.Meta.AbsolutePath
      ["workspace", "show"] (some v) s.Meta.Workspace w.state).1.1 == s.Meta.Workspace)
      = true := by simpa using hsame
  simp only [PlanStep.switchWorkspace, workspaceThreshold, h9, TerraformExec.call, hshow, hb,
    Bool.false_eq_true, if_false, if_true]

/-- When the workspace handling fails, `PlanStep.Run` returns its error and
issues no further command. -/
theorem PlanStep.run_of_switch_failed {σ : Type} (tf : TerraformExec σ) (s : PlanStep)
    (v : Version) (w w1 : TfWorld σ) (e : GoError) (hv : s.Meta.TerraformVersion = some v)
    (hsw : PlanStep.switchWorkspace tf s v w = (some e, w1)) :
    PlanStep.Run tf s w = some (("", some e), w1) := by
  simp only [PlanStep.Run, hv, hsw]

/-- The complete behaviour of `PlanStep.Run` when a switch is needed
(`workspace show` succeeds with another workspace), for the subcommand family
of the version: `select` succeeds (show, select, plan); `select` fails and
`new` succeeds (show, select, new, plan); both fail (show, select, new, and
the error of `new`). -/
theorem PlanStep.run_switch_cases {σ : Type} (tf : TerraformExec σ) (s : PlanStep) (v : Version)
    (w : TfWorld σ) (family : String)
    (hv : s.Meta.TerraformVersion = some v)
    (h9 : v.lt (Version.mk 0 9 0) = false)
    (hfam : family = workspaceCommand v)
    (hshow : (tf.run (showCall s v) w.state).1.2 = none)
    (hdiff : trimTrailingNewline (tf.run (showCall s v) w.state).1.1 ≠ s.Meta.Workspace) :
    ((tf.run (selectCall family s v) (tf.stateAfter [showCall s v] w.state)).1.2 = none →
          ∃ r, PlanStep.Run tf s w = some r
            ∧ r.2.calls = w.calls ++
                [showCall s v, selectCall family s v,
                 planCall s v (tf.FileExists (envFilePath s)
                   (tf.stateAfter [showCall s v, selectCall family s v] w.state))]
            ∧ r.1 = (tf.run
                (planCall s v (tf.FileExists (envFilePath s)
                  (tf.stateAfter [showCall s v, selectCall family s v] w.state)))
                (tf.stateAfter [showCall s v, selectCall family s v] w.state)).1)
        ∧ (∀ e, 
          (tf.run (selectCall family s v) (tf.stateAfter [showCall s v] w.state)).1.2 = some e →
          (tf.run (newCall family s v)
            (tf.stateAfter [showCall s v, selectCall family s v] w.state)).1.2 = none →
          ∃ r, PlanStep.Run tf s w = some r
            ∧ r.2.calls = w.calls ++
                [showCall s v, selectCall family s v, newCall family s v,
                 planCall s v (tf.FileExists (envFilePath s)
                   (tf.stateAfter [showCall s v, selectCall family s v, newCall family s v]
                  w.state))]
            ∧ r.1 = (tf.run
                (planCall s v (tf.FileExists (envFilePath s)
                  (tf.stateAfter [showCall s v, selectCall family s v, newCall family s v]
                  w.state)))
                (tf.stateAfter [showCall s v, selectCall family s v, newCall family s v]
                w.state)).1)
        ∧ (∀ e e2, 
          (tf.run (selectCall family s v) (tf.stateAfter [showCall s v] w.state)).1.2 = some e →
          (tf.run (newCall family s v)
            (tf.stateAfter [showCall s v, selectCall family s v] w.state)).1.2 = some e2 →
          ∃ r, PlanStep.Run tf s w = some r
            ∧ r.2.calls = w.calls ++
                [showCall s v, selectCall family s v, newCall family s v]
            ∧ r.1 = ("", some e2)) := by
  subst hfam
  simp only [TerraformExec.run, TerraformExec.stateAfter, showCall] at hshow hdiff
  have hb : (trimTrailingNewline (tf.RunCommandWithVersion s.Meta.AbsolutePath
      ["workspace", "show"] (some v) s.Meta.Workspace w.state).1.1 == s.Meta.Workspace)
      = false := by simpa using hdiff
  refine ⟨fun hsel => ?_, fun e hsel hnew => ?_, fun e e2 hsel hnew => ?_⟩
  · simp only [TerraformExec.run, TerraformExec.stateAfter, showCall, selectCall] at hsel
    have hsw : PlanStep.switchWorkspace tf s v w =
        (none, { state := tf.stateAfter [showCall s v, selectCall (workspaceCommand v) s v]
                   w.state
                 calls := w.calls ++ [showCall s v, selectCall (workspaceCommand v) s v] }) := by
      simp only [PlanStep.switchWorkspace, workspaceThreshold, h9, TerraformExec.call, hshow, hb,
        hsel, Bool.false_eq_true, if_false, TerraformExec.run, TerraformExec.stateAfter,
        showCall, selectCall, List.append_assoc, List.singleton_append, List.cons_append,
        List.nil_append]
    refine ⟨_, PlanStep.run_of_switched tf s v w _ hv hsw, ?_, ?_⟩
    · simp [TerraformExec.call, TerraformExec.stateAfter, TerraformExec.run, showCall,
        selectCall, planCall]
    · simp [TerraformExec.call, TerraformExec.stateAfter, TerraformExec.run, showCall,
        selectCall, planCall]
  · simp only [TerraformExec.run, TerraformExec.stateAfter, showCall, selectCall,
      newCall] at hsel hnew
    have hsw : PlanStep.switchWorkspace tf s v w =
        (none, { state := tf.stateAfter [showCall s v, selectCall (workspaceCommand v) s v,
                   newCall (workspaceCommand v) s v] w.state
                 calls := w.calls ++ [showCall s v, selectCall (workspaceCommand v) s v,
                   newCall (workspaceCommand v) s v] }) := by
      simp only [PlanStep.switchWorkspace, workspaceThreshold, h9, TerraformExec.call, hshow, hb,
        hsel, hnew, Bool.false_eq_true, if_false, TerraformExec.run, TerraformExec.stateAfter,
        showCall, selectCall, newCall, List.append_assoc, List.singleton_append,
        List.cons_append, List.nil_append]
    refine ⟨_, PlanStep.run_of_switched tf s v w _ hv hsw, ?_, ?_⟩
    · simp [TerraformExec.call, TerraformExec.stateAfter, TerraformExec.run, showCall,
        selectCall, newCall, planCall]
    · simp [TerraformExec.call, TerraformExec.stateAfter, TerraformExec.run, showCall,
        selectCall, newCall, planCall]
  · simp only [TerraformExec.run, TerraformExec.stateAfter, showCall, selectCall,
      newCall] at hsel hnew
    have hsw : PlanStep.switchWorkspace tf s v w =
        (some e2, { state := tf.stateAfter [showCall s v, selectCall (workspaceCommand v) s v,
                      newCall (workspaceCommand v) s v] w.state
                    calls := w.calls ++ [showCall s v, selectCall (workspaceCommand v) s v,
                      newCall (workspaceCommand v) s v] }) := by
      simp only [PlanStep.switchWorkspace, workspaceThreshold, h9, TerraformExec.call, hshow, hb,
        hsel, hnew, Bool.false_eq_true, if_false, TerraformExec.run, TerraformExec.stateAfter,
        showCall, selectCall, newCall, List.append_assoc, List.singleton_append,
        List.cons_append, List.nil_append]
    refine ⟨_, PlanStep.run_of_switch_failed tf s v w _ e2 hv hsw, ?_, rfl⟩
    simp [showCall, selectCall, newCall]

/-- C9: the workspace subcommand family depends on the version alone.  For a
step at version `v`, whatever the executor, when a switch is needed
(`workspace show` succeeds with another workspace):
(1) if 0.9.0 <= v < 0.10.0 the commands are exactly `workspace show`,
`env select -no-color <workspace>` and the plan command when the select
succeeds; show, `env select`, `env new -no-color <workspace>` and plan when
the select fails and the new succeeds; show, `env select`, `env new` and
nothing more (the error of new is returned) when both fail;
(2) if v >= 0.10.0 the same holds with `workspace select` and
`workspace new`;
and (3) if v < 0.9.0 and the workspace is "default", the plan command is the
only command issued and its result is returned. -/
theorem planstep_workspace_family {σ : Type} (tf : TerraformExec σ) (s : PlanStep) (v : Version)
    (w : TfWorld σ) (hv : s.Meta.TerraformVersion = some v) :
    (v.lt (Version.mk 0 9 0) = false → v.lt (Version.mk 0 10 0) = true →
        (tf.run (showCall s v) w.state).1.2 = none →
        trimTrailingNewline (tf.run (showCall s v) w.state).1.1 ≠ s.Meta.Workspace →
        ((tf.run (selectCall "env" s v) (tf.stateAfter [showCall s v] w.state)).1.2 = none →
          ∃ r, PlanStep.Run tf s w = some r
            ∧ r.2.calls = w.calls ++
                [showCall s v, selectCall "env" s v,
                 planCall s v (tf.FileExists (envFilePath s)
                   (tf.stateAfter [showCall s v, selectCall "env" s v] w.state))]
            ∧ r.1 = (tf.run
                (planCall s v (tf.FileExists (envFilePath s)
                  (tf.stateAfter [showCall s v, selectCall "env" s v] w.state)))
                (tf.stateAfter [showCall s v, selectCall "env" s v] w.state)).1)
        ∧ (∀ e, 
          (tf.run (selectCall "env" s v) (tf.stateAfter [showCall s v] w.state)).1.2 = some e →
          (tf.run (newCall "env" s v)
            (tf.stateAfter [showCall s v, selectCall "env" s v] w.state)).1.2 = none →
          ∃ r, PlanStep.Run tf s w = some r
            ∧ r.2.calls = w.calls ++
                [showCall s v, selectCall "env" s v, newCall "env" s v,
                 planCall s v (tf.FileExists (envFilePath s)
                   (tf.stateAfter [showCall s v, selectCall "env" s v, newCall "env" s v]
                  w.state))]
            ∧ r.1 = (tf.run
                (planCall s v (tf.FileExists (envFilePath s)
                  (tf.stateAfter [showCall s v, selectCall "env" s v, newCall "env" s v]
                  w.state)))
                (tf.stateAfter [showCall s v, selectCall "env" s v, newCall "env" s v]
                w.state)).1)
        ∧ (∀ e e2, 
          (tf.run (selectCall "env" s v) (tf.stateAfter [showCall s v] w.state)).1.2 = some e →
          (tf.run (newCall "env" s v)
            (tf.stateAfter [showCall s v, selectCall "env" s v] w.state)).1.2 = some e2 →
          ∃ r, PlanStep.Run tf s w = some r
            ∧ r.2.calls = w.calls ++
                [showCall s v, selectCall "env" s v, newCall "env" s v]
            ∧ r.1 = ("", some e2)))
      ∧ (v.lt (Version.mk 0 10 0) = false →
        (tf.run (showCall s v) w.state).1.2 = none →
        trimTrailingNewline (tf.run (showCall s v) w.state).1.1 ≠ s.Meta.Workspace →
        ((tf.run (selectCall "workspace" s v) (tf.stateAfter [showCall s v] w.state)).1.2 = none →
          ∃ r, PlanStep.Run tf s w = some r
            ∧ r.2.calls = w.calls ++
                [showCall s v, selectCall "workspace" s v,
                 planCall s v (tf.FileExists (envFilePath s)
                   (tf.stateAfter [showCall s v, selectCall "workspace" s v] w.state))]
            ∧ r.1 = (tf.run
                (planCall s v (tf.FileExists (envFilePath s)
                  (tf.stateAfter [showCall s v, selectCall "workspace" s v] w.state)))
                (tf.stateAfter [showCall s v, selectCall "workspace" s v] w.state)).1)
        ∧ (∀ e, 
          (tf.run (selectCall "workspace" s v) (tf.stateAfter [showCall s v] w.state)).1.2 = some e →
          (tf.run (newCall "workspace" s v)
            (tf.stateAfter [showCall s v, selectCall "workspace" s v] w.state)).1.2 = none →
          ∃ r, PlanStep.Run tf s w = some r
            ∧ r.2.calls = w.calls ++
                [showCall s v, selectCall "workspace" s v, newCall "workspace" s v,
                 planCall s v (tf.FileExists (envFilePath s)
                   (tf.stateAfter [showCall s v, selectCall "workspace" s v, newCall "workspace" s v]
                  w.state))]
            ∧ r.1 = (tf.run
                (planCall s v (tf.FileExists (envFilePath s)
                  (tf.stateAfter [showCall s v, selectCall "workspace" s v, newCall "workspace" s v]
                  w.state)))
                (tf.stateAfter [showCall s v, selectCall "workspace" s v, newCall "workspace" s v]
                w.state)).1)
        ∧ (∀ e e2, 
          (tf.run (selectCall "workspace" s v) (tf.stateAfter [showCall s v] w.state)).1.2 = some e →
          (tf.run (newCall "workspace" s v)
            (tf.stateAfter [showCall s v, selectCall "workspace" s v] w.state)).1.2 = some e2 →
          ∃ r, PlanStep.Run tf s w = some r
            ∧ r.2.calls = w.calls ++
                [showCall s v, selectCall "workspace" s v, newCall "workspace" s v]
            ∧ r.1 = ("", some e2)))
      ∧ (v.lt (Version.mk 0 9 0) = true → s.Meta.Workspace = "default" →
        ∃ r, PlanStep.Run tf s w = some r
          ∧ r.2.calls = w.calls ++ [planCall s v (tf.FileExists (envFilePath s) w.state)]
          ∧ r.1 = (tf.run (planCall s v (tf.FileExists (envFilePath s) w.state)) w.state).1) := by
  refine ⟨fun h9 h10 hshow hdiff => ?_, fun h10 hshow hdiff => ?_, fun h9 hws => ?_⟩
  · exact PlanStep.run_switch_cases tf s v w "env" hv h9
      (by simp only [workspaceCommand, h10, if_true]) hshow hdiff
  · exact PlanStep.run_switch_cases tf s v w "workspace" hv
      (Version.not_lt_nine_of_not_lt_ten v h10)
      (by simp only [workspaceCommand, h10, Bool.false_eq_true, if_false]) hshow hdiff
  · have hsw : PlanStep.switchWorkspace tf s v w = (none, w) := by
      simp [PlanStep.switchWorkspace, workspaceThreshold, h9, hws]
    refine ⟨_, PlanStep.run_of_switched tf s v w w hv hsw, ?_, ?_⟩
    · simp [TerraformExec.call, planCall]
    · simp [TerraformExec.call, TerraformExec.run, planCall]

/-- C9 at the inputs of `TestRun_SwitchesWorkspace` and
`TestRun_NoWorkspaceIn08`: version 0.9.11 issues exactly `workspace show`,
`env select -no-color workspace` and the plan command; version 0.11.0 the
same with `workspace select`; version 0.8.0 on workspace "default" the plan
command only; each returns "output" with no error. -/
theorem planstep_workspace_family_witness :
    (∃ r, PlanStep.Run (testExec "output") (testPlanStep "workspace" (Version.mk 0 9 11))
        emptyWorld = some r
      ∧ r.2.calls = emptyWorld.calls ++
          [ExecCall.mk "/path" ["workspace", "show"] (some (Version.mk 0 9 11)) "workspace",
           ExecCall.mk "/path" ["env", "select", "-no-color", "workspace"]
             (some (Version.mk 0 9 11)) "workspace",
           planCall (testPlanStep "workspace" (Version.mk 0 9 11)) (Version.mk 0 9 11) false]
      ∧ r.1 = ("output", none))
      ∧ (∃ r, PlanStep.Run (testExec "output") (testPlanStep "workspace" (Version.mk 0 11 0))
        emptyWorld = some r
      ∧ r.2.calls = emptyWorld.calls ++
          [ExecCall.mk "/path" ["workspace", "show"] (some (Version.mk 0 11 0)) "workspace",
           ExecCall.mk "/path" ["workspace", "select", "-no-color", "workspace"]
             (some (Version.mk 0 11 0)) "workspace",
           planCall (testPlanStep "workspace" (Version.mk 0 11 0)) (Version.mk 0 11 0) false]
      ∧ r.1 = ("output", none))
      ∧ (∃ r, PlanStep.Run (testExec "output") (testPlanStep "default" (Version.mk 0 8 0))
        emptyWorld = some r
      ∧ r.2.calls = emptyWorld.calls ++
          [planCall (testPlanStep "default" (Version.mk 0 8 0)) (Version.mk 0 8 0) false]
      ∧ r.1 = ("output", none)) :=
  ⟨((planstep_workspace_family (testExec "output") (testPlanStep "workspace" (Version.mk 0 9 11))
      (Version.mk 0 9 11) emptyWorld rfl).1 (by decide) (by decide) rfl (by decide)).1 rfl,
   ((planstep_workspace_family (testExec "output") (testPlanStep "workspace" (Version.mk 0 11 0))
      (Version.mk 0 11 0) emptyWorld rfl).2.1 (by decide) rfl (by decide)).1 rfl,
   (planstep_workspace_family (testExec "output") (testPlanStep "default" (Version.mk 0 8 0))
      (Version.mk 0 8 0) emptyWorld rfl).2.2 (by decide) rfl⟩

/-- C10: for every version from 0.9.0 on, if `workspace show` succeeds and
its output without the trailing newline is the target workspace, `Run` issues
exactly two commands, `workspace show` and the plan command (no `select`, no
`new`), and returns what the executor returns for the plan command. -/
theorem planstep_no_switch_on_target {σ : Type} (tf : TerraformExec σ) (s : PlanStep)
    (v : Version) (w : TfWorld σ)
    (hv : s.Meta.TerraformVersion = some v)
    (h9 : v.lt (Version.mk 0 9 0) = false)
    (hshow : (tf.RunCommandWithVersion s.Meta.AbsolutePath ["workspace", "show"] (some v)
      s.Meta.Workspace w.state).1.2 = none)
    (hsame : trimTrailingNewline (tf.RunCommandWithVersion s.Meta.AbsolutePath
      ["workspace", "show"] (some v) s.Meta.Workspace w.state).1.1 = s.Meta.Workspace) :
    ∃ r, PlanStep.Run tf s w = some r
      ∧ r.2.calls = w.calls ++
          [showCall s v,
           planCall s v (tf.FileExists (envFilePath s)
             (tf.RunCommandWithVersion s.Meta.AbsolutePath ["workspace", "show"] (some v)
               s.Meta.Workspace w.state).2)]
      ∧ r.1 = (tf.RunCommandWithVersion s.Meta.AbsolutePath
          (s.planArgs (tf.FileExists (envFilePath s)
            (tf.RunCommandWithVersion s.Meta.AbsolutePath ["workspace", "show"] (some v)
              s.Meta.Workspace w.state).2)) (some v) s.Meta.Workspace
          (tf.RunCommandWithVersion s.Meta.AbsolutePath ["workspace", "show"] (some v)
            s.Meta.Workspace w.state).2).1 := by
  refine ⟨_, PlanStep.run_of_switched tf s v w _ hv
    (PlanStep.switchWorkspace_on_target tf s v w h9 hshow hsame), ?_, ?_⟩
  · simp [TerraformExec.call, showCall, planCall]
  · simp [TerraformExec.call]

/-- C10 at the input of `TestRun_NoWorkspaceSwitchIfNotNecessary`: version
0.10.0, `workspace show` answers "workspace\n" and the target is "workspace":
the calls are `workspace show` and the plan command, the output is "output". -/
theorem planstep_no_switch_on_target_witness :
    ∃ r, PlanStep.Run (testExec "workspace\n") (testPlanStep "workspace" (Version.mk 0 10 0))
        emptyWorld = some r
      ∧ r.2.calls = emptyWorld.calls ++
          [showCall (testPlanStep "workspace" (Version.mk 0 10 0)) (Version.mk 0 10 0),
           planCall (testPlanStep "workspace" (Version.mk 0 10 0)) (Version.mk 0 10 0) false]
      ∧ r.1 = ("output", none) :=
  planstep_no_switch_on_target (testExec "workspace\n")
    (testPlanStep "workspace" (Version.mk 0 10 0)) (Version.mk 0 10 0) emptyWorld rfl
    (by decide) rfl (by decide)

/-- C11: for every version from 0.9.0 on, when a switch is needed
(`workspace show` succeeds with another workspace) and the version's `select`
fails, `Run` issues the version's `new` (`[family, "new", "-no-color",
<workspace>]`); if that succeeds it goes on to the plan command, so that
exactly four commands are issued (show, select, new, plan), and it returns
what the executor returns for the plan command: the `select` failure `e` is
not propagated. -/
theorem planstep_creates_workspace {σ : Type} (tf : TerraformExec σ) (s : PlanStep)
    (v : Version) (w : TfWorld σ) (e : GoError)
    (hv : s.Meta.TerraformVersion = some v)
    (h9 : v.lt (Version.mk 0 9 0) = false)
    (hshow : (tf.run (showCall s v) w.state).1.2 = none)
    (hdiff : trimTrailingNewline (tf.run (showCall s v) w.state).1.1 ≠ s.Meta.Workspace)
    (hsel : (tf.run (selectCall (workspaceCommand v) s v)
      (tf.stateAfter [showCall s v] w.state)).1.2 = some e)
    (hnew : (tf.run (newCall (workspaceCommand v) s v)
      (tf.stateAfter [showCall s v, selectCall (workspaceCommand v) s v] w.state)).1.2 = none) :
    ∃ r, PlanStep.Run tf s w = some r
      ∧ r.2.calls = w.calls ++
          [showCall s v, selectCall (workspaceCommand v) s v,
           ExecCall.mk s.Meta.AbsolutePath
             [workspaceCommand v, "new", "-no-color", s.Meta.Workspace] (some v) s.Meta.Workspace,
           planCall s v (tf.FileExists (envFilePath s)
             (tf.stateAfter [showCall s v, selectCall (workspaceCommand v) s v,
               newCall (workspaceCommand v) s v] w.state))]
      ∧ r.1 = (tf.run (planCall s v (tf.FileExists (envFilePath s)
            (tf.stateAfter [showCall s v, selectCall (workspaceCommand v) s v,
              newCall (workspaceCommand v) s v] w.state)))
          (tf.stateAfter [showCall s v, selectCall (workspaceCommand v) s v,
            newCall (workspaceCommand v) s v] w.state)).1 := by
  simp only [TerraformExec.run, TerraformExec.stateAfter, showCall, selectCall, newCall]
    at hshow hdiff hsel hnew
  have hb : (trimTrailingNewline (tf.RunCommandWithVersion s.Meta.AbsolutePath
      ["workspace", "show"] (some v) s.Meta.Workspace w.state).1.1 == s.Meta.Workspace)
      = false := by simpa using hdiff
  have hsw : PlanStep.switchWorkspace tf s v w =
      (none, { state := tf.stateAfter [showCall s v, selectCall (workspaceCommand v) s v,
                 newCall (workspaceCommand v) s v] w.state
               calls := w.calls ++ [showCall s v, selectCall (workspaceCommand v) s v,
                 newCall (workspaceCommand v) s v] }) := by
    simp only [PlanStep.switchWorkspace, workspaceThreshold, h9, TerraformExec.call, hshow, hb,
      hsel, hnew, Bool.false_eq_true, if_false, TerraformExec.run, TerraformExec.stateAfter,
      showCall, selectCall, newCall, List.append_assoc, List.singleton_append, List.cons_append,
      List.nil_append]
  refine ⟨_, PlanStep.run_of_switched tf s v w _ hv hsw, ?_, ?_⟩
  · simp [TerraformExec.call, showCall, selectCall, newCall, planCall]
  · simp [TerraformExec.call, TerraformExec.run, planCall]

/-- C11 at the inputs of `TestRun_CreatesWorkspace`: at version 0.9.0 the
failing `env select` is followed by `env new` and the plan command, whose
output "output" is returned with no error. -/
theorem planstep_creates_workspace_witness :
    ∃ r, PlanStep.Run createExec (testPlanStep "workspace" (Version.mk 0 9 0)) emptyWorld = some r
      ∧ r.2.calls = emptyWorld.calls ++
          [ExecCall.mk "/path" ["workspace", "show"] (some (Version.mk 0 9 0)) "workspace",
           ExecCall.mk "/path" ["env", "select", "-no-color", "workspace"]
             (some (Version.mk 0 9 0)) "workspace",
           ExecCall.mk "/path" ["env", "new", "-no-color", "workspace"]
             (some (Version.mk 0 9 0)) "workspace",
           planCall (testPlanStep "workspace" (Version.mk 0 9 0)) (Version.mk 0 9 0) false]
      ∧ r.1 = ("output", none) :=
  planstep_creates_workspace createExec (testPlanStep "workspace" (Version.mk 0 9 0))
    (Version.mk 0 9 0) emptyWorld (GoError.new "workspace does not exist") rfl (by decide) rfl
    (by decide) rfl rfl

/-- C12: whenever the workspace handling of a step at version `v` succeeds
(leaving the world `w1`), `Run` issues as its last command, at
`AbsolutePath` with the version and the workspace, exactly
`plan -refresh -no-color -out <AbsolutePath>/<workspace>.tfplan -var
atlantis_user=<Username>`, then `ExtraArgs`, then `Meta.ExtraCommentArgs`,
then `-var-file <AbsolutePath>/env/<workspace>.tfvars` if and only if that
file exists; and it returns what the executor returns for that command. -/
theorem planstep_plan_command {σ : Type} (tf : TerraformExec σ) (s : PlanStep) (v : Version)
    (w w1 : TfWorld σ)
    (hv : s.Meta.TerraformVersion = some v)
    (hsw : PlanStep.switchWorkspace tf s v w = (none, w1)) :
    ∃ r, PlanStep.Run tf s w = some r
      ∧ r.2.calls = w1.calls ++
          [ExecCall.mk s.Meta.AbsolutePath
            (["plan", "-refresh", "-no-color", "-out",
                s.Meta.AbsolutePath ++ "/" ++ s.Meta.Workspace ++ ".tfplan",
                "-var", "atlantis_user=" ++ s.Meta.Username]
              ++ s.ExtraArgs ++ s.Meta.ExtraCommentArgs
              ++ (if tf.FileExists (s.Meta.AbsolutePath ++ "/env/" ++ s.Meta.Workspace ++ ".tfvars")
                    w1.state = true
                  then ["-var-file", s.Meta.AbsolutePath ++ "/env/" ++ s.Meta.Workspace ++ ".tfvars"]
                  else []))
            (some v) s.Meta.Workspace]
      ∧ r.1 = (tf.RunCommandWithVersion s.Meta.AbsolutePath
          (["plan", "-refresh", "-no-color", "-out",
              s.Meta.AbsolutePath ++ "/" ++ s.Meta.Workspace ++ ".tfplan",
              "-var", "atlantis_user=" ++ s.Meta.Username]
            ++ s.ExtraArgs ++ s.Meta.ExtraCommentArgs
            ++ (if tf.FileExists (s.Meta.AbsolutePath ++ "/env/" ++ s.Meta.Workspace ++ ".tfvars")
                  w1.state = true
                then ["-var-file", s.Meta.AbsolutePath ++ "/env/" ++ s.Meta.Workspace ++ ".tfvars"]
                else []))
          (some v) s.Meta.Workspace w1.state).1 := by
  have hargs : s.planArgs (tf.FileExists (envFilePath s) w1.state) =
      ["plan", "-refresh", "-no-color", "-out",
          s.Meta.AbsolutePath ++ "/" ++ s.Meta.Workspace ++ ".tfplan",
          "-var", "atlantis_user=" ++ s.Meta.Username]
        ++ s.ExtraArgs ++ s.Meta.ExtraCommentArgs
        ++ (if tf.FileExists (s.Meta.AbsolutePath ++ "/env/" ++ s.Meta.Workspace ++ ".tfvars")
              w1.state = true
            then ["-var-file", s.Meta.AbsolutePath ++ "/env/" ++ s.Meta.Workspace ++ ".tfvars"]
            else []) := by
    simp only [PlanStep.planArgs, envFilePath]
    split <;> simp
  refine ⟨_, PlanStep.run_of_switched tf s v w w1 hv hsw, ?_, ?_⟩
  · simp only [TerraformExec.call, hargs]
  · simp only [TerraformExec.call, hargs]

/-- C12 at the inputs of `TestRun_AddsEnvVarFile` (project path "/path"):
the var file exists, so the plan command ends in `-var-file
/path/env/workspace.tfvars`, and "output" is returned. -/
theorem planstep_plan_command_witness :
    ∃ r, PlanStep.Run varFileExec (testPlanStep "workspace" (Version.mk 0 10 0)) emptyWorld
        = some r
      ∧ r.2.calls =
          [ExecCall.mk "/path" ["workspace", "show"] (some (Version.mk 0 10 0)) "workspace"] ++
          [ExecCall.mk "/path"
            ["plan", "-refresh", "-no-color", "-out", "/path/workspace.tfplan", "-var",
             "atlantis_user=username", "extra", "args", "comment", "args", "-var-file",
             "/path/env/workspace.tfvars"]
            (some (Version.mk 0 10 0)) "workspace"]
      ∧ r.1 = ("output", none) :=
  planstep_plan_command varFileExec (testPlanStep "workspace" (Version.mk 0 10 0))
    (Version.mk 0 10 0) emptyWorld
    { state := ()
      calls := [ExecCall.mk "/path" ["workspace", "show"] (some (Version.mk 0 10 0)) "workspace"] }
    rfl rfl

/-! ## The apply step -/

/-- C13: whenever the plan file `<AbsolutePath>/<Workspace>.tfplan` does not
exist, `ApplyStep.Run` fails with exactly `no plan found at path
"<DirRelativeToRepoRoot>" and workspace "<Workspace>"–did you run plan?`
and issues no command: the world is returned unchanged. -/
theorem applystep_no_plan_file {σ : Type} (tf : TerraformExec σ) (s : ApplyStep) (w : TfWorld σ)
    (hfile : tf.FileExists (s.Meta.AbsolutePath ++ "/" ++ s.Meta.Workspace ++ ".tfplan") w.state
      = false) :
    ApplyStep.Run tf s w =
      (("", some (GoError.new ("no plan found at path \"" ++ s.Meta.DirRelativeToRepoRoot ++
        "\" and workspace \"" ++ s.Meta.Workspace ++ "\"–did you run plan?"))), w) := by
  simp only [ApplyStep.Run, ApplyStep.planPath, hfile, Bool.not_false, if_true]

/-- C13 at the input of `TestRun_NoDir`: project path "nonexistent/path",
directory "." and workspace "workspace". -/
theorem applystep_no_plan_file_witness :
    ApplyStep.Run planFileExec (testApplyStep "nonexistent/path" none) emptyWorld =
        (("", some (GoError.new ("no plan found at path \"" ++ "." ++
          "\" and workspace \"" ++ "workspace" ++ "\"–did you run plan?"))), emptyWorld)
      ∧ "no plan found at path \"" ++ "." ++ "\" and workspace \"" ++ "workspace" ++
          "\"–did you run plan?" =
        "no plan found at path \".\" and workspace \"workspace\"–did you run plan?" :=
  ⟨applystep_no_plan_file planFileExec (testApplyStep "nonexistent/path" none) emptyWorld
      (by decide),
    by decide⟩

/-- C14: whenever the plan file exists, `ApplyStep.Run` issues exactly one
command, at `AbsolutePath` with the step's version and workspace:
`apply -no-color`, then `ExtraArgs`, then `Meta.ExtraCommentArgs`, then the
plan file path; it returns the executor's output and error unchanged and
leaves the executor in the state that command left. -/
theorem applystep_runs_apply {σ : Type} (tf : TerraformExec σ) (s : ApplyStep) (w : TfWorld σ)
    (hfile : tf.FileExists (s.Meta.AbsolutePath ++ "/" ++ s.Meta.Workspace ++ ".tfplan") w.state
      = true) :
    (ApplyStep.Run tf s w).2.calls = w.calls ++
        [ExecCall.mk s.Meta.AbsolutePath
          (["apply", "-no-color"] ++ s.ExtraArgs ++ s.Meta.ExtraCommentArgs ++
            [s.Meta.AbsolutePath ++ "/" ++ s.Meta.Workspace ++ ".tfplan"])
          s.Meta.TerraformVersion s.Meta.Workspace]
      ∧ (ApplyStep.Run tf s w).1 = (tf.RunCommandWithVersion s.Meta.AbsolutePath
          (["apply", "-no-color"] ++ s.ExtraArgs ++ s.Meta.ExtraCommentArgs ++
            [s.Meta.AbsolutePath ++ "/" ++ s.Meta.Workspace ++ ".tfplan"])
          s.Meta.TerraformVersion s.Meta.Workspace w.state).1
      ∧ (ApplyStep.Run tf s w).2.state = (tf.RunCommandWithVersion s.Meta.AbsolutePath
          (["apply", "-no-color"] ++ s.ExtraArgs ++ s.Meta.ExtraCommentArgs ++
            [s.Meta.AbsolutePath ++ "/" ++ s.Meta.Workspace ++ ".tfplan"])
          s.Meta.TerraformVersion s.Meta.Workspace w.state).2 := by
  simp only [ApplyStep.Run, ApplyStep.planPath, hfile, Bool.not_true, Bool.false_eq_true,
    if_false, TerraformExec.call]
  refine ⟨?_, ?_, ?_⟩ <;> first | rfl | trivial

/-- C14 at the input of `TestRun_Success` (project path "/path"): version
0.11.4, one call `apply -no-color extra args comment args
/path/workspace.tfplan`, and the output "output" comes back unchanged. -/
theorem applystep_runs_apply_witness :
    (ApplyStep.Run planFileExec (testApplyStep "/path" (some (Version.mk 0 11 4)))
        emptyWorld).2.calls = emptyWorld.calls ++
        [ExecCall.mk "/path"
          (["apply", "-no-color"] ++ ["extra", "args"] ++ ["comment", "args"] ++
            ["/path" ++ "/" ++ "workspace" ++ ".tfplan"])
          (some (Version.mk 0 11 4)) "workspace"]
      ∧ (ApplyStep.Run planFileExec (testApplyStep "/path" (some (Version.mk 0 11 4)))
        emptyWorld).1 = ("output", none)
      ∧ (ApplyStep.Run planFileExec (testApplyStep "/path" (some (Version.mk 0 11 4)))
        emptyWorld).2.state = () :=
  applystep_runs_apply planFileExec (testApplyStep "/path" (some (Version.mk 0 11 4)))
    emptyWorld (by decide)

/-! ## The pipeline builder -/

/-- C15: whenever reading `atlantis.yaml` fails with a not-exist error,
`BuildPlanStage` returns a nil error and a plan stage whose steps are exactly
an `InitStep` and a `PlanStep`, in that order, both with nil `ExtraArgs` and
the same meta: the reader's default Terraform version, the workspace, the
joined absolute path, the relative path, the comment arguments and the
username passed in. -/
theorem build_plan_stage_defaults (r : Reader) (host : ConfigHost) (repoDir workspace
    relProjectPath : String) (extraCommentArgs : List String) (username : String) (e : GoError)
    (hread : (host.ReadFile (host.Join repoDir "atlantis.yaml")).2 = some e)
    (hne : host.IsNotExist e = true) :
    r.BuildPlanStage host repoDir workspace relProjectPath extraCommentArgs username =
      (some (BuiltPlanStage.mk
        [BuiltStep.InitStep (InitStep.mk []
            (StepMeta.mk workspace (host.Join repoDir relProjectPath) relProjectPath
              r.DefaultTFVersion extraCommentArgs username)),
         BuiltStep.PlanStep (PlanStep.mk []
            (StepMeta.mk workspace (host.Join repoDir relProjectPath) relProjectPath
              r.DefaultTFVersion extraCommentArgs username))]),
       none) := by
  simp only [Reader.BuildPlanStage, AtlantisYAMLFilename, hread, hne, if_true]

/-- C15 at a concrete input: no `atlantis.yaml` in "/repo", project ".",
workspace "default", default version 0.11.4. -/
theorem build_plan_stage_defaults_witness :
    testReader.BuildPlanStage (fixedHost "" (some notExistError)) "/repo" "default" "."
        ["-target=x"] "lkysow" =
      (some (BuiltPlanStage.mk
        [BuiltStep.InitStep (InitStep.mk []
            (StepMeta.mk "default" "/repo/." "." (some (Version.mk 0 11 4)) ["-target=x"]
              "lkysow")),
         BuiltStep.PlanStep (PlanStep.mk []
            (StepMeta.mk "default" "/repo/." "." (some (Version.mk 0 11 4)) ["-target=x"]
              "lkysow"))]),
       none) :=
  build_plan_stage_defaults testReader (fixedHost "" (some notExistError)) "/repo" "default" "."
    ["-target=x"] "lkysow" notExistError rfl (by decide)

/-- C16: whenever reading `atlantis.yaml` fails with a not-exist error,
`BuildApplyStage` returns a nil error and an apply stage whose steps are
exactly one `ApplyStep` with nil `ExtraArgs`, whose `ApplyRequirements` are
empty, and whose meta has the reader's default Terraform version and the
workspace, paths, comment arguments and username passed in. -/
theorem build_apply_stage_defaults (r : Reader) (host : ConfigHost) (repoDir workspace
    relProjectPath : String) (extraCommentArgs : List String) (username : String) (e : GoError)
    (hread : (host.ReadFile (host.Join repoDir "atlantis.yaml")).2 = some e)
    (hne : host.IsNotExist e = true) :
    r.BuildApplyStage host repoDir workspace relProjectPath extraCommentArgs username =
      (some (BuiltApplyStage.mk
        [BuiltStep.ApplyStep (ApplyStep.mk []
            (StepMeta.mk workspace (host.Join repoDir relProjectPath) relProjectPath
              r.DefaultTFVersion extraCommentArgs username))]
        []),
       none) := by
  simp only [Reader.BuildApplyStage, AtlantisYAMLFilename, hread, hne, if_true]

/-- C16 at a concrete input: no `atlantis.yaml` in "/repo", project ".",
workspace "default", default version 0.11.4. -/
theorem build_apply_stage_defaults_witness :
    testReader.BuildApplyStage (fixedHost "" (some notExistError)) "/repo" "default" "."
        ["-target=x"] "lkysow" =
      (some (BuiltApplyStage.mk
        [BuiltStep.ApplyStep (ApplyStep.mk []
            (StepMeta.mk "default" "/repo/." "." (some (Version.mk 0 11 4)) ["-target=x"]
              "lkysow"))]
        []),
       none) :=
  build_apply_stage_defaults testReader (fixedHost "" (some notExistError)) "/repo" "default" "."
    ["-target=x"] "lkysow" notExistError rfl (by decide)

/-- C17 (the code at the failing input): with an `atlantis.yaml` that is
read, parsed and validated and has no project at all (so none for path "."
and workspace "default"), both builders return no stage and a nil error. -/
theorem build_stage_present_config_no_error :
    (fixedHost "version: 2" none).ReadFile "/repo/atlantis.yaml" = ("version: 2", none)
      ∧ (fixedHost "version: 2" none).Parse "version: 2" = (emptyConfig, none)
      ∧ testReader.validateConfig emptyConfig = none
      ∧ emptyConfig.Projects.filter (fun p => p.Dir == "." && p.Workspace == "default") = []
      ∧ testReader.BuildPlanStage (fixedHost "version: 2" none) "/repo" "default" "." []
          "lkysow" = (none, none)
      ∧ testReader.BuildApplyStage (fixedHost "version: 2" none) "/repo" "default" "." []
          "lkysow" = (none, none) := by
  refine ⟨?_, ?_, ?_, ?_, ?_, ?_⟩ <;> decide

/-- C18: whenever reading `atlantis.yaml` fails with an error `e` that is not
a not-exist error, both builders return no stage and `e` wrapped as
`unable to read atlantis.yaml file: <e>`; the default pipeline is not used. -/
theorem build_stage_read_error (r : Reader) (host : ConfigHost) (repoDir workspace
    relProjectPath : String) (extraCommentArgs : List String) (username : String) (e : GoError)
    (hread : (host.ReadFile (host.Join repoDir "atlantis.yaml")).2 = some e)
    (hne : host.IsNotExist e = false) :
    r.BuildPlanStage host repoDir workspace relProjectPath extraCommentArgs username =
        (none, some (GoError.wrap e "unable to read atlantis.yaml file"))
      ∧ r.BuildApplyStage host repoDir workspace relProjectPath extraCommentArgs username =
        (none, some (GoError.wrap e "unable to read atlantis.yaml file"))
      ∧ (GoError.wrap e "unable to read atlantis.yaml file").Error =
        "unable to read atlantis.yaml file: " ++ e.Error := by
  have hname : "unable to read " ++ "atlantis.yaml" ++ " file" =
      "unable to read atlantis.yaml file" := by decide
  refine ⟨?_, ?_, rfl⟩
  · simp only [Reader.BuildPlanStage, AtlantisYAMLFilename, hread, hne, Bool.false_eq_true,
      if_false, hname]
  · simp only [Reader.BuildApplyStage, AtlantisYAMLFilename, hread, hne, Bool.false_eq_true,
      if_false, hname]

/-- C18 at a concrete input: reading "/repo/atlantis.yaml" is denied. -/
theorem build_stage_read_error_witness :
    testReader.BuildPlanStage (fixedHost "" (some permissionError)) "/repo" "default" "." []
        "lkysow" = (none, some (GoError.wrap permissionError "unable to read atlantis.yaml file"))
      ∧ testReader.BuildApplyStage (fixedHost "" (some permissionError)) "/repo" "default" "." []
        "lkysow" = (none, some (GoError.wrap permissionError "unable to read atlantis.yaml file"))
      ∧ (GoError.wrap permissionError "unable to read atlantis.yaml file").Error =
        "unable to read atlantis.yaml file: " ++ permissionError.Error :=
  build_stage_read_error testReader (fixedHost "" (some permissionError)) "/repo" "default" "."
    [] "lkysow" permissionError rfl (by decide)

/-! ## The pre-executor: not-acquired responses -/

/-- The conflict message is never empty. -/
theorem lockedByMessage_ne_empty (n : Int) : lockedByMessage n ≠ "" := by
  intro h
  have hlen := congrArg String.length h
  simp only [lockedByMessage, String.length_append] at hlen
  have h37 : ("This project is currently locked by #" : String).length = 37 := by decide
  have h0 : ("" : String).length = 0 := rfl
  omega

/-- C19 as stated fails: a `TryLock` response with no error and
`LockAcquired = false` whose current lock belongs to the requesting pull
request itself (number 3) is handed back as `LockResponse`, with no failure
and no error. -/
theorem execute_not_acquired_same_pull_passes :
    (Execute (fixedLocker { LockAcquired := false, CurrLock := lockHeldBy 3, LockKey := "k" }
        none) (ctxFor 3) exampleProject 0).result.ProjectResult.Failure = ""
      ∧ (Execute (fixedLocker { LockAcquired := false, CurrLock := lockHeldBy 3, LockKey := "k" }
        none) (ctxFor 3) exampleProject 0).result.ProjectResult.Error = none
      ∧ (Execute (fixedLocker { LockAcquired := false, CurrLock := lockHeldBy 3, LockKey := "k" }
        none) (ctxFor 3) exampleProject 0).result.LockResponse =
          { LockAcquired := false, CurrLock := lockHeldBy 3, LockKey := "k" }
      ∧ (Execute (fixedLocker { LockAcquired := false, CurrLock := lockHeldBy 3, LockKey := "k" }
        none) (ctxFor 3) exampleProject 0).result.LockResponse ≠ TryLockResponse.zero := by
  refine ⟨?_, ?_, ?_, ?_⟩ <;> decide

/-- C19, amended: for every `TryLock` response with no error and
`LockAcquired = false`, if the current lock belongs to a different pull
request, `Execute` returns a non-empty user-facing failure (the "locked by"
message) and an empty lock response; if it belongs to the requesting pull
request, `Execute` returns the response itself as `LockResponse`, with no
failure. -/
theorem execute_not_acquired {σ : Type} (p : Locker σ) (ctx : CommandContext)
    (project : Project) (store : σ)
    (herr : (p.TryLock project ctx.Command.Workspace ctx.Pull ctx.User store).1.2 = none)
    (hacq : (p.TryLock project ctx.Command.Workspace ctx.Pull ctx.User store).1.1.LockAcquired
      = false) :
    ((p.TryLock project ctx.Command.Workspace ctx.Pull ctx.User store).1.1.CurrLock.Pull.Num
          ≠ ctx.Pull.Num →
        (Execute p ctx project store).result.ProjectResult.Failure ≠ ""
        ∧ (Execute p ctx project store).result.ProjectResult.Failure = lockedByMessage
            (p.TryLock project ctx.Command.Workspace ctx.Pull ctx.User store).1.1.CurrLock.Pull.Num
        ∧ (Execute p ctx project store).result.LockResponse = TryLockResponse.zero)
      ∧ ((p.TryLock project ctx.Command.Workspace ctx.Pull ctx.User store).1.1.CurrLock.Pull.Num
          = ctx.Pull.Num →
        (Execute p ctx project store).result.ProjectResult.Failure = ""
        ∧ (Execute p ctx project store).result.LockResponse =
            (p.TryLock project ctx.Command.Workspace ctx.Pull ctx.User store).1.1) := by
  constructor
  · intro hne
    have hcond : (!(p.TryLock project ctx.Command.Workspace ctx.Pull ctx.User
        store).1.1.LockAcquired
        && (p.TryLock project ctx.Command.Workspace ctx.Pull ctx.User store).1.1.CurrLock.Pull.Num
          != ctx.Pull.Num) = true := by
      rw [hacq]
      simpa using hne
    simp only [Execute, herr, hcond, if_true]
    refine ⟨lockedByMessage_ne_empty _, ?_, ?_⟩ <;> first | rfl | trivial
  · intro heq
    have hcond : (!(p.TryLock project ctx.Command.Workspace ctx.Pull ctx.User
        store).1.1.LockAcquired
        && (p.TryLock project ctx.Command.Workspace ctx.Pull ctx.User store).1.1.CurrLock.Pull.Num
          != ctx.Pull.Num) = false := by
      rw [hacq]
      simpa using heq
    simp only [Execute, herr, hcond, Bool.false_eq_true, if_false, Execute.afterLock]
    refine ⟨?_, ?_⟩ <;> first | rfl | trivial

/-- C19, amended, at a concrete input: pull request 3 meets a lock held by
pull request 7 and gets the failure and an empty lock response. -/
theorem execute_not_acquired_witness :
    (Execute (fixedLocker { LockAcquired := false, CurrLock := lockHeldBy 7, LockKey := "k" }
        none) (ctxFor 3) exampleProject 0).result.ProjectResult.Failure ≠ ""
      ∧ (Execute (fixedLocker { LockAcquired := false, CurrLock := lockHeldBy 7, LockKey := "k" }
        none) (ctxFor 3) exampleProject 0).result.ProjectResult.Failure = lockedByMessage 7
      ∧ (Execute (fixedLocker { LockAcquired := false, CurrLock := lockHeldBy 7, LockKey := "k" }
        none) (ctxFor 3) exampleProject 0).result.LockResponse = TryLockResponse.zero :=
  (execute_not_acquired
    (fixedLocker { LockAcquired := false, CurrLock := lockHeldBy 7, LockKey := "k" } none)
    (ctxFor 3) exampleProject 0 rfl rfl).1 (by decide)

/-! ## Stage output -/

/-- Joining a list of strings takes the head first. -/
theorem String.join_cons_eq (a : String) (l : List String) :
    String.join (a :: l) = a ++ String.join l := by
  apply String.ext
  simp [String.data_join]

/-- Go's `len` is additive over concatenation. -/
theorem goLen_append (a b : String) : goLen (a ++ b) = goLen a + goLen b := by
  cases a with
  | mk as =>
    cases b with
    | mk bs =>
      show String.utf8ByteSize (String.mk (as ++ bs)) = _
      simp [goLen, String.utf8ByteSize_mk, String.utf8Len_append]

/-- The accumulated output written as a recursion is the concatenation of the
newline-prefixed non-empty outputs. -/
theorem newlinePrefixed_eq (outs : List String) : newlinePrefixed outs = prefixedOutputs outs := by
  induction outs with
  | nil => rfl
  | cons o outs ih =>
    by_cases h : (o != "") = true
    · simp only [newlinePrefixed, h, if_true, prefixedOutputs, List.filter_cons_of_pos,
        List.map_cons, String.join_cons_eq]
      rw [ih, prefixedOutputs]
    · have hf : (o :: outs).filter (fun o => o != "") = outs.filter (fun o => o != "") := by
        simp only [List.filter_cons, h, Bool.false_eq_true, if_false]
      simp only [newlinePrefixed, h, if_false, prefixedOutputs, Bool.false_eq_true, hf]
      rw [ih, prefixedOutputs]

/-- The accumulated output is empty exactly when every output is empty. -/
theorem newlinePrefixed_eq_empty (outs : List String) :
    newlinePrefixed outs = "" ↔ ∀ o ∈ outs, o = "" := by
  induction outs with
  | nil => simp [newlinePrefixed]
  | cons o outs ih =>
    by_cases h : o = ""
    · subst h
      simp [newlinePrefixed, ih]
    · have hb : (o != "") = true := by simpa using h
      simp only [newlinePrefixed, hb, if_true, List.mem_cons, forall_eq_or_imp, h, false_and,
        iff_false]
      intro hempty
      have hlen := congrArg String.length hempty
      simp only [String.length_append] at hlen
      have h1 : ("\n" : String).length = 1 := by decide
      have h0 : ("" : String).length = 0 := rfl
      omega

/-- A non-empty accumulated output begins with a newline. -/
theorem newlinePrefixed_begins (outs : List String) (h : newlinePrefixed outs ≠ "") :
    ∃ rest, newlinePrefixed outs = "\n" ++ rest := by
  induction outs with
  | nil => exact absurd rfl h
  | cons o outs ih =>
    by_cases hb : (o != "") = true
    · refine ⟨o ++ newlinePrefixed outs, ?_⟩
      simp only [newlinePrefixed, hb, if_true, String.append_assoc]
    · simp only [newlinePrefixed, hb, if_false, Bool.false_eq_true] at h ⊢
      exact ih h

/-- The byte length of the accumulated output is the sum, over the non-empty
outputs, of one plus the output's length. -/
theorem goLen_newlinePrefixed (outs : List String) :
    goLen (newlinePrefixed outs) =
      ((outs.filter (fun o => o != "")).map (fun o => 1 + goLen o)).sum := by
  induction outs with
  | nil => rfl
  | cons o outs ih =>
    by_cases hb : (o != "") = true
    · have h1 : goLen "\n" = 1 := by decide
      simp only [newlinePrefixed, hb, if_true, goLen_append, ih, h1, List.filter_cons_of_pos,
        List.map_cons, List.sum_cons]
    · have hf : (o :: outs).filter (fun o => o != "") = outs.filter (fun o => o != "") := by
        simp only [List.filter_cons, hb, Bool.false_eq_true, if_false]
      simp only [newlinePrefixed, hb, if_false, Bool.false_eq_true, ih, hf]

/-- C20: for every step list whose steps all succeed with outputs `outs`,
`PlanStage.Run` returns a nil error and the concatenation, in step order, of
a newline followed by the output over exactly the non-empty outputs.  So the
output is empty iff every step output is empty; otherwise it begins with a
newline; and its length (Go `len`) is the sum over the non-empty outputs of
one plus the output's length. -/
theorem plan_stage_run_output {ω : Type} (steps : List (Step ω)) (w w1 : ω)
    (outs : List String) (h : stepsSucceed steps w = some (outs, w1)) :
    PlanStage.Run (PlanStage.mk steps) w =
        ((String.join ((outs.filter (fun o => o != "")).map (fun o => "\n" ++ o)), none), w1)
      ∧ ((PlanStage.Run (PlanStage.mk steps) w).1.1 = "" ↔ ∀ o ∈ outs, o = "")
      ∧ ((PlanStage.Run (PlanStage.mk steps) w).1.1 ≠ "" →
          ∃ rest, (PlanStage.Run (PlanStage.mk steps) w).1.1 = "\n" ++ rest)
      ∧ goLen (PlanStage.Run (PlanStage.mk steps) w).1.1 =
          ((outs.filter (fun o => o != "")).map (fun o => 1 + goLen o)).sum := by
  have hrun : PlanStage.Run (PlanStage.mk steps) w = ((newlinePrefixed outs, none), w1) := by
    have h1 := planLoop_append steps [] "" w outs w1 h
    simp only [List.append_nil] at h1
    simp only [PlanStage.Run, h1, PlanStage.loop, String.empty_append]
  refine ⟨?_, ?_, ?_, ?_⟩
  · rw [hrun, newlinePrefixed_eq, prefixedOutputs]
  · rw [hrun]
    exact newlinePrefixed_eq_empty outs
  · rw [hrun]
    exact newlinePrefixed_begins outs
  · rw [hrun]
    exact goLen_newlinePrefixed outs

/-- C20 at a concrete input: steps with outputs "a", "" and "b" give
"\na\nb", which begins with a newline and has length 4 = (1 + 1) + (1 + 1). -/
theorem plan_stage_run_output_witness :
    PlanStage.Run (PlanStage.mk
        [namedStep "s1" "a" none, namedStep "s2" "" none, namedStep "s3" "b" none]) [] =
        ((String.join ((["a", "", "b"].filter (fun o => o != "")).map (fun o => "\n" ++ o)), none),
          ["s1", "s2", "s3"])
      ∧ ((PlanStage.Run (PlanStage.mk
        [namedStep "s1" "a" none, namedStep "s2" "" none, namedStep "s3" "b" none]) []).1.1 = ""
          ↔ ∀ o ∈ ["a", "", "b"], o = "")
      ∧ ((PlanStage.Run (PlanStage.mk
        [namedStep "s1" "a" none, namedStep "s2" "" none, namedStep "s3" "b" none]) []).1.1 ≠ "" →
          ∃ rest, (PlanStage.Run (PlanStage.mk
            [namedStep "s1" "a" none, namedStep "s2" "" none, namedStep "s3" "b" none])
              []).1.1 = "\n" ++ rest)
      ∧ goLen (PlanStage.Run (PlanStage.mk
        [namedStep "s1" "a" none, namedStep "s2" "" none, namedStep "s3" "b" none]) []).1.1 =
          ((["a", "", "b"].filter (fun o => o != "")).map (fun o => 1 + goLen o)).sum :=
  plan_stage_run_output
    [namedStep "s1" "a" none, namedStep "s2" "" none, namedStep "s3" "b" none] []
    ["s1", "s2", "s3"] ["a", "", "b"] rfl

/-! ## The two stages compared -/

/-- The apply loop and the plan loop agree on every step list, accumulator
and world. -/
theorem applyLoop_eq_planLoop {ω : Type} (steps : List (Step ω)) :
    ∀ (acc : String) (w : ω), ApplyStage.loop steps acc w = PlanStage.loop steps acc w := by
  induction steps with
  | nil => intro acc w; rfl
  | cons step rest ih =>
    intro acc w
    simp only [ApplyStage.loop, PlanStage.loop, ih]

/-- C21: `ApplyStage.Run` and `PlanStage.Run` are the same function of the
step list: for every list of steps, every list of apply requirements and
every world, the apply stage returns the same output and error and leaves the
same world (so it ran the same steps) as the plan stage over those steps;
and its result is the same whatever the requirements are, met or not. -/
theorem apply_stage_run_eq_plan_stage_run {ω : Type} (steps : List (Step ω))
    (reqs reqs2 : List ApplyRequirement) (w : ω) :
    ApplyStage.Run (ApplyStage.mk steps reqs) w = PlanStage.Run (PlanStage.mk steps) w
      ∧ ApplyStage.Run (ApplyStage.mk steps reqs) w =
          ApplyStage.Run (ApplyStage.mk steps reqs2) w :=
  ⟨applyLoop_eq_planLoop steps "" w, rfl⟩

/-- C21 at a concrete input: with an unmet requirement the apply stage still
runs its step "apply" and returns its output, as the plan stage does. -/
theorem apply_stage_run_eq_plan_stage_run_witness :
    unmetRequirement.IsMet.1 = false
      ∧ ApplyStage.Run (ApplyStage.mk [namedStep "apply" "applied" none] [unmetRequirement]) []
          = (("\napplied", none), ["apply"])
      ∧ ApplyStage.Run (ApplyStage.mk [namedStep "apply" "applied" none] [unmetRequirement]) []
          = PlanStage.Run (PlanStage.mk [namedStep "apply" "applied" none]) [] :=
  ⟨rfl, by decide,
    (apply_stage_run_eq_plan_stage_run [namedStep "apply" "applied" none] [unmetRequirement] []
      []).1⟩

/-! ## The pre-executor: the revocation branch -/

/-- C22: the lock-revocation branch of `Execute` is never taken.  For every
locker, lock store, context and project, the `Locker` calls of `Execute` are
exactly one `TryLock` (with the project, the command's workspace, the pull
request and the user) and no `Unlock`, the lock store is the one `TryLock`
left, and the result has a nil `TerraformVersion` and an empty
`ProjectConfig`. -/
theorem execute_never_unlocks {σ : Type} (p : Locker σ) (ctx : CommandContext)
    (project : Project) (store : σ) :
    (Execute p ctx project store).calls =
        [LockerCall.TryLock project ctx.Command.Workspace ctx.Pull ctx.User]
      ∧ (∀ key, LockerCall.Unlock key ∉ (Execute p ctx project store).calls)
      ∧ (Execute p ctx project store).store =
          (p.TryLock project ctx.Command.Workspace ctx.Pull ctx.User store).2
      ∧ (Execute p ctx project store).result.TerraformVersion = none
      ∧ (Execute p ctx project store).result.ProjectConfig =
          { PreInit := [], PreGet := [], PrePlan := [], PreApply := [],
            TerraformVersion := none } := by
  have hmain : (Execute p ctx project store).calls =
        [LockerCall.TryLock project ctx.Command.Workspace ctx.Pull ctx.User]
      ∧ (Execute p ctx project store).store =
          (p.TryLock project ctx.Command.Workspace ctx.Pull ctx.User store).2
      ∧ (Execute p ctx project store).result.TerraformVersion = none
      ∧ (Execute p ctx project store).result.ProjectConfig =
          { PreInit := [], PreGet := [], PrePlan := [], PreApply := [],
            TerraformVersion := none } := by
    cases herr : (p.TryLock project ctx.Command.Workspace ctx.Pull ctx.User store).1.2 with
    | some e =>
      simp only [Execute, herr]
      refine ⟨?_, ?_, ?_, ?_⟩ <;> first | rfl | trivial
    | none =>
      simp only [Execute, herr]
      split
      · refine ⟨?_, ?_, ?_, ?_⟩ <;> rfl
      · simp only [Execute.afterLock]
        refine ⟨?_, ?_, ?_, ?_⟩ <;> first | rfl | trivial
  refine ⟨hmain.1, ?_, hmain.2.1, hmain.2.2.1, hmain.2.2.2⟩
  intro key hmem
  rw [hmain.1] at hmem
  simp at hmem

end Atlantis
